import Mathlib

/-
Verification of the Prismer SDK offline manager (sdk/python/prismer/offline.py).

Modelling conventions:
- Python values flowing through request bodies, event payloads and network
  responses are embedded as the JSON-like type `JVal`.  A Python `None` is
  `JVal.jnull`; `dict.get(k)` returning `None` (key absent or value `None`)
  collapses to `jnull`.
- Python dicts are association lists with Python's update-in-place /
  append-at-end insertion semantics (`dictGet` / `dictPut` / `dictPop`).
- Code that can raise is embedded in `Except String`; where a raise can leave
  partial mutations behind, the partial state is threaded explicitly.
- Nondeterministic inputs of the source (uuid4, datetime.now, time.time and
  the injected `network_request`) are parameters of the embedded functions.
- `asyncio` scheduling is sequentialised: the single-flight flags and the
  fire-and-forget flush kicks are not modelled; `flush` and `sync` are invoked
  explicitly, which is how every claim exercises them.
- Python `sort` raises on incomparable keys; the embedding uses the total
  order `jvalLt` instead, which agrees with Python on homogeneous string or
  numeric keys (the only keys any claim exercises).
-/

namespace Prismer

/-- JSON-like Python value. -/
inductive JVal where
  | jnull : JVal
  | jbool (b : Bool) : JVal
  | jnum (n : Int) : JVal
  | jstr (s : String) : JVal
  | jarr (xs : List JVal) : JVal
  | jobj (fields : List (String × JVal)) : JVal

mutual

def beqJ : JVal → JVal → Bool
  | .jnull, .jnull => true
  | .jbool a, .jbool b => a == b
  | .jnum a, .jnum b => a == b
  | .jstr a, .jstr b => a == b
  | .jarr xs, .jarr ys => beqJList xs ys
  | .jobj xs, .jobj ys => beqJFields xs ys
  | _, _ => false

def beqJList : List JVal → List JVal → Bool
  | [], [] => true
  | x :: xs, y :: ys => beqJ x y && beqJList xs ys
  | _, _ => false

def beqJFields : List (String × JVal) → List (String × JVal) → Bool
  | [], [] => true
  | (k, v) :: xs, (l, w) :: ys => k == l && beqJ v w && beqJFields xs ys
  | _, _ => false

end

mutual

theorem beqJ_refl : ∀ a, beqJ a a = true
  | .jnull => rfl
  | .jbool b => by simp [beqJ]
  | .jnum n => by simp [beqJ]
  | .jstr s => by simp [beqJ]
  | .jarr xs => by simp [beqJ]; exact beqJList_refl xs
  | .jobj fs => by simp [beqJ]; exact beqJFields_refl fs

theorem beqJList_refl : ∀ xs, beqJList xs xs = true
  | [] => rfl
  | x :: xs => by simp [beqJList]; exact ⟨beqJ_refl x, beqJList_refl xs⟩

theorem beqJFields_refl : ∀ fs, beqJFields fs fs = true
  | [] => rfl
  | (k, v) :: fs => by simp [beqJFields]; exact ⟨beqJ_refl v, beqJFields_refl fs⟩

end

mutual

theorem beqJ_eq : ∀ a b, beqJ a b = true → a = b
  | .jnull, b, h => by cases b <;> simp_all [beqJ]
  | .jbool x, b, h => by cases b <;> simp_all [beqJ]
  | .jnum x, b, h => by cases b <;> simp_all [beqJ]
  | .jstr x, b, h => by cases b <;> simp_all [beqJ]
  | .jarr xs, b, h => by
      cases b <;> simp_all [beqJ]
      exact beqJList_eq xs _ h
  | .jobj fs, b, h => by
      cases b <;> simp_all [beqJ]
      exact beqJFields_eq fs _ h

theorem beqJList_eq : ∀ xs ys, beqJList xs ys = true → xs = ys
  | [], [], _ => rfl
  | [], _ :: _, h => by simp [beqJList] at h
  | _ :: _, [], h => by simp [beqJList] at h
  | x :: xs, y :: ys, h => by
      simp only [beqJList, Bool.and_eq_true] at h
      rw [beqJ_eq x y h.1, beqJList_eq xs ys h.2]

theorem beqJFields_eq : ∀ xs ys, beqJFields xs ys = true → xs = ys
  | [], [], _ => rfl
  | [], _ :: _, h => by simp [beqJFields] at h
  | _ :: _, [], h => by simp [beqJFields] at h
  | (k, v) :: xs, (l, w) :: ys, h => by
      simp only [beqJFields, Bool.and_eq_true] at h
      have hk : k = l := by simpa using h.1.1
      rw [hk, beqJ_eq v w h.1.2, beqJFields_eq xs ys h.2]

end

instance : DecidableEq JVal := fun a b =>
  if h : beqJ a b = true then isTrue (beqJ_eq a b h)
  else isFalse (fun he => h (he ▸ beqJ_refl a))

/-- Python truthiness of an embedded value. -/
def truthy : JVal → Bool
  | .jnull => false
  | .jbool b => b
  | .jnum n => n != 0
  | .jstr s => s != ""
  | .jarr xs => !xs.isEmpty
  | .jobj fs => !fs.isEmpty

/-- Python `a or b`. -/
def pyOr (a b : JVal) : JVal := if truthy a then a else b

/-- Python-dict lookup on an association list (first binding wins). -/
def dictGet {K V : Type} [DecidableEq K] (k : K) : List (K × V) → Option V
  | [] => none
  | (k', v) :: rest => if k' = k then some v else dictGet k rest

/-- First binding of key `k` in a Python-dict field list. -/
def jField (fs : List (String × JVal)) (k : String) : Option JVal :=
  dictGet k fs

/-- Python `v.get(k)` (returns `None` when absent); raises AttributeError
on a non-dict receiver. -/
def pyGetE (v : JVal) (k : String) : Except String JVal :=
  match v with
  | .jobj fs => .ok ((jField fs k).getD .jnull)
  | _ => .error "AttributeError: get"

/-- Python `v.get(k, d)` (presence-based default); raises on a non-dict
receiver. -/
def pyGetDE (v : JVal) (k : String) (d : JVal) : Except String JVal :=
  match v with
  | .jobj fs => .ok ((jField fs k).getD d)
  | _ => .error "AttributeError: get"

/-- Python `needle in hay` for a string needle: substring test on strings,
membership on lists, key membership on dicts, TypeError otherwise. -/
def hasSub (hay needle : List Char) : Bool :=
  if needle.isPrefixOf hay then true
  else
    match hay with
    | [] => false
    | _ :: t => hasSub t needle

def strHasSub (hay needle : String) : Bool := hasSub hay.data needle.data

def pyInE (needle : String) (hay : JVal) : Except String Bool :=
  match hay with
  | .jstr s => .ok (strHasSub s needle)
  | .jarr xs => .ok (xs.contains (.jstr needle))
  | .jobj fs => .ok (fs.any (fun p => p.1 == needle))
  | _ => .error "TypeError: argument of type is not iterable"

/-- Python iteration (`for x in v`): lists yield elements, dicts yield keys,
strings yield one-character strings, everything else raises TypeError. -/
def pyIterE : JVal → Except String (List JVal)
  | .jarr xs => .ok xs
  | .jobj fs => .ok (fs.map (fun p => .jstr p.1))
  | .jstr s => .ok (s.data.map (fun c => .jstr (String.mk [c])))
  | _ => .error "TypeError: object is not iterable"

mutual

/-- Python `repr` for embedded values (quote-escaping inside strings is not
reproduced; no claim exercises it). -/
def pyReprJ : JVal → String
  | .jnull => "None"
  | .jbool true => "True"
  | .jbool false => "False"
  | .jnum n => toString n
  | .jstr s => "'" ++ s ++ "'"
  | .jarr xs => "[" ++ pyReprL xs ++ "]"
  | .jobj fs => "\x7b" ++ pyReprF fs ++ "\x7d"

def pyReprL : List JVal → String
  | [] => ""
  | [x] => pyReprJ x
  | x :: xs => pyReprJ x ++ ", " ++ pyReprL xs

def pyReprF : List (String × JVal) → String
  | [] => ""
  | [(k, v)] => "'" ++ k ++ "': " ++ pyReprJ v
  | (k, v) :: fs => "'" ++ k ++ "': " ++ pyReprJ v ++ ", " ++ pyReprF fs

end

/-- Python `str(v)`. -/
def pyStrJ : JVal → String
  | .jstr s => s
  | v => pyReprJ v

/-- Python `int(v)` for strings/ints/bools (optional sign, decimal digits,
surrounding spaces); raises otherwise. -/
def parseDigits (cs : List Char) (acc : Int) : Option Int :=
  match cs with
  | [] => some acc
  | c :: rest =>
      if c.isDigit then parseDigits rest (acc * 10 + (c.toNat - '0'.toNat : Nat))
      else none

def pyIntE : JVal → Except String Int
  | .jnum n => .ok n
  | .jbool b => .ok (if b then 1 else 0)
  | .jstr s =>
      let cs := (s.data.dropWhile (· = ' ')).reverse.dropWhile (· = ' ') |>.reverse
      match cs with
      | '-' :: rest =>
          match parseDigits rest 0 with
          | some n => if rest.isEmpty then .error "ValueError" else .ok (-n)
          | none => .error "ValueError"
      | '+' :: rest =>
          match parseDigits rest 0 with
          | some n => if rest.isEmpty then .error "ValueError" else .ok n
          | none => .error "ValueError"
      | rest =>
          match parseDigits rest 0 with
          | some n => if rest.isEmpty then .error "ValueError" else .ok n
          | none => .error "ValueError"
  | _ => .error "TypeError: int"

/-- Total comparison used to embed Python `sort` (see note below); agrees
with Python `<` on homogeneous numeric or string keys. -/
def jrank : JVal → Nat
  | .jnull => 0
  | .jbool _ => 1
  | .jnum _ => 2
  | .jstr _ => 3
  | .jarr _ => 4
  | .jobj _ => 5

def jvalLt (a b : JVal) : Bool :=
  match a, b with
  | .jnum x, .jnum y => decide (x < y)
  | .jstr x, .jstr y => decide (x < y)
  | .jbool x, .jbool y => !x && y
  | a, b => decide (jrank a < jrank b)

def jvalLe (a b : JVal) : Bool := !(jvalLt b a)

/-- Python `d[k] = v`: update the existing binding in place, else append. -/
def dictPut {K V : Type} [DecidableEq K] (k : K) (v : V) : List (K × V) → List (K × V)
  | [] => [(k, v)]
  | (k', v') :: rest => if k' = k then (k', v) :: rest else (k', v') :: dictPut k v rest

/-- Python `d.pop(k, None)`: drop the binding for `k` if present. -/
def dictPop {K V : Type} [DecidableEq K] (k : K) : List (K × V) → List (K × V)
  | [] => []
  | (k', v) :: rest => if k' = k then rest else (k', v) :: dictPop k rest

/-- Python `{**fs}`: re-insert every binding into a fresh dict. -/
def normFields (fs : List (String × JVal)) : List (String × JVal) :=
  fs.foldl (fun acc kv => dictPut kv.1 kv.2 acc) []

/-- Stable insertion used to embed Python's stable `sort`: `keep y x` means
an earlier element `y` stays in front of the element `x` being inserted. -/
def insIns {α : Type} (keep : α → α → Bool) (x : α) : List α → List α
  | [] => [x]
  | y :: ys => if keep y x then y :: insIns keep x ys else x :: y :: ys

def pySortBy {α : Type} (keep : α → α → Bool) (l : List α) : List α :=
  l.foldl (fun acc x => insIns keep x acc) []

/-- offline.py StoredMessage. -/
structure StoredMessage where
  id : JVal
  conversation_id : JVal
  content : JVal
  type : JVal
  sender_id : JVal
  status : String := "confirmed"
  client_id : Option String := none
  parent_id : JVal := .jnull
  metadata : JVal := .jnull
  created_at : JVal := .jstr ""
  updated_at : JVal := .jnull
  sync_seq : JVal := .jnull
deriving DecidableEq

/-- offline.py StoredConversation. -/
structure StoredConversation where
  id : JVal
  type : JVal
  title : JVal := .jnull
  last_message : JVal := .jnull
  last_message_at : JVal := .jnull
  unread_count : JVal := .jnum 0
  members : JVal := .jnull
  metadata : JVal := .jnull
  updated_at : JVal := .jnull
  sync_seq : JVal := .jnull
deriving DecidableEq

/-- offline.py OutboxOperation (uuid and timestamps supplied as parameters;
`retries`/`max_retries` are the non-negative ints the code produces). -/
structure OutboxOperation where
  id : String
  type : String
  method : String
  path : String
  body : JVal := .jnull
  query : JVal := .jnull
  status : String := "pending"
  created_at : Int := 0
  retries : Nat := 0
  max_retries : Nat := 5
  idempotency_key : String := ""
  local_data : Option StoredMessage := none
  error : JVal := .jnull
deriving DecidableEq

/-- offline.py SyncEvent (fields carry whatever the raw event dict held;
the source field `at` is spelled `evAt` because `at` is a Lean keyword). -/
structure SyncEvent where
  seq : JVal
  type : JVal
  data : JVal
  conversation_id : JVal := .jnull
  evAt : JVal := .jstr ""
deriving DecidableEq

/-- MemoryStorage state: messages/conversations/outbox keyed like the Python
dicts, contacts list and cursor map. -/
structure Storage where
  messages : List (JVal × StoredMessage) := []
  conversations : List (JVal × StoredConversation) := []
  contacts : List JVal := []
  cursors : List (String × String) := []
  outbox : List (String × OutboxOperation) := []
deriving DecidableEq

def emptyStorage : Storage := {}

/-- MemoryStorage.put_messages. -/
def putMessages (msgs : List StoredMessage) (st : Storage) : Storage :=
  msgs.foldl (fun s m => { s with messages := dictPut m.id m s.messages }) st

/-- MemoryStorage.delete_message. -/
def deleteMessage (mid : JVal) (st : Storage) : Storage :=
  { st with messages := dictPop mid st.messages }

/-- MemoryStorage.get_message. -/
def getMessage (mid : JVal) (st : Storage) : Option StoredMessage :=
  dictGet mid st.messages

/-- MemoryStorage.put_conversations. -/
def putConversations (convs : List StoredConversation) (st : Storage) : Storage :=
  convs.foldl (fun s c => { s with conversations := dictPut c.id c s.conversations }) st

/-- MemoryStorage.get_conversation. -/
def getConversation (cid : JVal) (st : Storage) : Option StoredConversation :=
  dictGet cid st.conversations

/-- MemoryStorage.put_contacts. -/
def putContacts (cs : List JVal) (st : Storage) : Storage :=
  { st with contacts := cs }

/-- MemoryStorage.set_cursor. -/
def setCursorSt (k v : String) (st : Storage) : Storage :=
  { st with cursors := dictPut k v st.cursors }

/-- MemoryStorage.get_messages: filter by conversation, stable sort by
created_at, optional `before` filter, Python slice `[-limit:]`. -/
def pySliceLast {α : Type} (limit : Int) (xs : List α) : List α :=
  if limit > 0 then xs.drop (xs.length - limit.toNat)
  else if limit = 0 then xs
  else xs.drop (-limit).toNat

def getMessages (convId : JVal) (limit : Int) (before : JVal) (st : Storage) :
    List StoredMessage :=
  let msgs := (st.messages.map Prod.snd).filter (fun m => m.conversation_id == convId)
  let sorted := pySortBy (fun y x => jvalLe y.created_at x.created_at) msgs
  let filtered :=
    if truthy before then sorted.filter (fun m => jvalLt m.created_at before) else sorted
  pySliceLast limit filtered

/-- MemoryStorage.get_conversations: stable sort by `updated_at or ""`
descending, first `limit`. -/
def getConversations (limit : Nat) (st : Storage) : List StoredConversation :=
  (pySortBy
      (fun y x => jvalLe (pyOr x.updated_at (.jstr "")) (pyOr y.updated_at (.jstr "")))
      (st.conversations.map Prod.snd)).take limit

/-- MemoryStorage.enqueue. -/
def stEnqueue (op : OutboxOperation) (st : Storage) : Storage :=
  { st with outbox := dictPut op.id op st.outbox }

/-- Readiness filter of MemoryStorage.dequeue_ready. -/
def isReady (op : OutboxOperation) : Bool :=
  op.status == "pending" && op.retries < op.max_retries

/-- MemoryStorage.dequeue_ready. -/
def dequeueReady (limit : Nat) (st : Storage) : List OutboxOperation :=
  ((pySortBy (fun y x => decide (y.created_at ≤ x.created_at))
      ((st.outbox.map Prod.snd).filter isReady))).take limit

/-- MemoryStorage.ack. -/
def stAck (opId : String) (st : Storage) : Storage :=
  { st with outbox := dictPop opId st.outbox }

/-- The in-place update MemoryStorage.nack applies to a stored operation. -/
def nackOp (err : JVal) (r : Nat) (op : OutboxOperation) : OutboxOperation :=
  { op with
    retries := r
    error := err
    status := if r ≥ op.max_retries then "failed" else op.status }

/-- MemoryStorage.nack. -/
def stNack (opId : String) (err : JVal) (r : Nat) (st : Storage) : Storage :=
  match dictGet opId st.outbox with
  | none => st
  | some op => { st with outbox := dictPut opId (nackOp err r op) st.outbox }

/-- `re.search(r"/api/im/conversations/[^/]+/read", path)`: after the literal
prefix, a non-empty slash-free segment whose first following slash starts
"read". -/
def afterSegRead : List Char → Bool
  | [] => false
  | '/' :: rest => ("read".data).isPrefixOf ('/' :: rest).tail
  | _ :: rest => afterSegRead rest

def segThenRead : List Char → Bool
  | [] => false
  | c :: rest => if c = '/' then false else afterSegRead rest

def convReadAt (l : List Char) : Bool :=
  ("/api/im/conversations/".data).isPrefixOf l &&
    segThenRead (l.drop ("/api/im/conversations/".data).length)

def convReadSearch : List Char → Bool
  | [] => false
  | c :: rest => convReadAt (c :: rest) || convReadSearch rest

/-- offline.py _WRITE_PATTERNS: method, unanchored path predicate
(`re.search`), operation type. -/
def writePatterns : List (String × (String → Bool) × String) :=
  [("POST",
    fun p => strHasSub p "/api/im/messages/" || strHasSub p "/api/im/direct/" ||
      strHasSub p "/api/im/groups/",
    "message.send"),
   ("PATCH", fun p => strHasSub p "/api/im/messages/", "message.edit"),
   ("DELETE", fun p => strHasSub p "/api/im/messages/", "message.delete"),
   ("POST", fun p => convReadSearch p.data, "conversation.read")]

def matchGo : List (String × (String → Bool) × String) → String → String → Option String
  | [], _, _ => none
  | (m, pat, t) :: rest, method, path =>
      if method == m && pat path then some t else matchGo rest method path

/-- offline.py _match_write_op. -/
def matchWriteOp (method path : String) : Option String :=
  matchGo writePatterns method path

/-- Event emitted through the offline emitter: name plus payload (a dict or
a StoredMessage object). -/
inductive EmitPayload where
  | pjson (j : JVal) : EmitPayload
  | pmsg (m : StoredMessage) : EmitPayload
deriving DecidableEq

abbrev Emit := String × EmitPayload

/-- `re.search(r"/(?:messages|direct|groups)/([^/]+)", path)` group 1:
leftmost occurrence, alternatives tried in order at each position. -/
def convSegAt (l : List Char) (w : List Char) : Option (List Char) :=
  if w.isPrefixOf l then
    let seg := (l.drop w.length).takeWhile (fun c => c ≠ '/')
    if seg.isEmpty then none else some seg
  else none

def convIdScan : List Char → Option (List Char)
  | [] => none
  | c :: rest =>
      match convSegAt (c :: rest) ("/messages/".data) with
      | some s => some s
      | none =>
          match convSegAt (c :: rest) ("/direct/".data) with
          | some s => some s
          | none =>
              match convSegAt (c :: rest) ("/groups/".data) with
              | some s => some s
              | none => convIdScan rest

def convIdFromPath (path : String) : String :=
  match convIdScan path.data with
  | some cs => String.mk cs
  | none => ""

/-- `{**(base or {}), "_idempotencyKey": idk}`; TypeError when the truthy
base is not a dict. -/
def mergeIdemKey (base : JVal) (idk : String) : Except String JVal :=
  match pyOr base (.jobj []) with
  | .jobj fs => .ok (.jobj (dictPut "_idempotencyKey" (.jstr idk) (normFields fs)))
  | _ => .error "TypeError: argument after must be a mapping"

/-- Body enrichment in _dispatch_write: inject the idempotency key into
metadata for truthy dict bodies of send/edit operations. -/
def enrichedBodyFor (opType : String) (body : JVal) (idk : String) :
    Except String JVal :=
  match body with
  | .jobj fs =>
      if truthy body && (opType == "message.send" || opType == "message.edit") then
        match mergeIdemKey ((jField fs "metadata").getD .jnull) idk with
        | .ok md => .ok (.jobj (dictPut "metadata" md (normFields fs)))
        | .error e => .error e
      else .ok body
  | _ => .ok body

/-- The optimistic StoredMessage _dispatch_write builds for a dict-bodied
message.send (uuid and current time passed in as `cid` / `nowIso`). -/
def optimisticLocalMessage (cid nowIso path : String) (fs : List (String × JVal)) :
    StoredMessage :=
  { id := .jstr ("local-" ++ cid)
    client_id := some cid
    conversation_id := .jstr (convIdFromPath path)
    content := (jField fs "content").getD (.jstr "")
    type := (jField fs "type").getD (.jstr "text")
    sender_id := .jstr "__self__"
    parent_id := (jField fs "parentId").getD .jnull
    status := "pending"
    metadata := (jField fs "metadata").getD .jnull
    created_at := .jstr nowIso }

/-- OfflineManager._dispatch_write.  `cid` is the minted uuid, `nowIso` the
ISO timestamp, `nowT` the epoch time, `retryLimit` the configured
outbox_retry_limit.  The fire-and-forget flush kick is not modelled. -/
def dispatchWrite (cid nowIso : String) (nowT : Int) (retryLimit : Nat)
    (opType method path : String) (body query : JVal) (st : Storage) :
    Except String (Storage × JVal × List Emit) :=
  let idk := "sdk-" ++ cid
  match enrichedBodyFor opType body idk with
  | .error e => .error e
  | .ok enriched =>
      let localOpt : Option StoredMessage :=
        match body with
        | .jobj fs => if opType == "message.send" then some (optimisticLocalMessage cid nowIso path fs) else none
        | _ => none
      let st1 :=
        match localOpt with
        | some lm => putMessages [lm] st
        | none => st
      let evs : List Emit :=
        match localOpt with
        | some lm => [("message.local", .pmsg lm)]
        | none => []
      let op : OutboxOperation :=
        { id := cid
          type := opType
          method := method
          path := path
          body := enriched
          query := query
          status := "pending"
          created_at := nowT
          retries := 0
          max_retries := retryLimit
          idempotency_key := idk
          local_data := localOpt
          error := .jnull }
      let st2 := stEnqueue op st1
      let ret : JVal :=
        .jobj
          [("ok", .jbool true),
           ("data",
            match localOpt with
            | some lm =>
                .jobj
                  [("conversationId", lm.conversation_id),
                   ("message",
                    .jobj
                      [("id", lm.id), ("content", lm.content), ("type", lm.type),
                       ("senderId", lm.sender_id), ("status", .jstr lm.status),
                       ("createdAt", lm.created_at)])]
            | none => .jnull),
           ("_pending", .jbool true),
           ("_clientId", .jstr cid)]
      .ok (st2, ret, evs)

/-- offline.py _msg_to_dict. -/
def msgToDict (m : StoredMessage) : JVal :=
  .jobj
    [("id", m.id), ("conversationId", m.conversation_id), ("content", m.content),
     ("type", m.type), ("senderId", m.sender_id), ("parentId", m.parent_id),
     ("status", .jstr m.status), ("metadata", m.metadata),
     ("createdAt", m.created_at), ("updatedAt", m.updated_at)]

/-- offline.py _conv_to_dict. -/
def convToDict (c : StoredConversation) : JVal :=
  .jobj
    [("id", c.id), ("type", c.type), ("title", c.title),
     ("lastMessage", c.last_message), ("lastMessageAt", c.last_message_at),
     ("unreadCount", c.unread_count), ("members", c.members),
     ("updatedAt", c.updated_at)]

/-- offline.py _dict_to_msg; raises on a non-dict element. -/
def dictToMsgE (fallbackConv : String) (d : JVal) : Except String StoredMessage :=
  match d with
  | .jobj fs =>
      .ok
        { id := (jField fs "id").getD (.jstr "")
          conversation_id := pyOr ((jField fs "conversationId").getD .jnull) (.jstr fallbackConv)
          content := (jField fs "content").getD (.jstr "")
          type := (jField fs "type").getD (.jstr "text")
          sender_id := (jField fs "senderId").getD (.jstr "")
          parent_id := (jField fs "parentId").getD .jnull
          status := "confirmed"
          metadata := (jField fs "metadata").getD .jnull
          created_at := (jField fs "createdAt").getD (.jstr "") }
  | _ => .error "AttributeError: get"

/-- offline.py _dict_to_conv; raises on a non-dict element. -/
def dictToConvE (nowIso : String) (d : JVal) : Except String StoredConversation :=
  match d with
  | .jobj fs =>
      .ok
        { id := (jField fs "id").getD (.jstr "")
          type := (jField fs "type").getD (.jstr "direct")
          title := (jField fs "title").getD .jnull
          last_message := (jField fs "lastMessage").getD .jnull
          last_message_at :=
            pyOr ((jField fs "lastMessageAt").getD .jnull)
              ((jField fs "updatedAt").getD .jnull)
          unread_count := (jField fs "unreadCount").getD (.jnum 0)
          members := (jField fs "members").getD .jnull
          metadata := (jField fs "metadata").getD .jnull
          updated_at := pyOr ((jField fs "updatedAt").getD .jnull) (.jstr nowIso) }
  | _ => .error "AttributeError: get"

/-- `re.search(r"X$", path)` is a suffix test. -/
def endsWithStr (path suff : String) : Bool := suff.data.isSuffixOf path.data

/-- `re.search(r"/api/im/messages/([^/]+)$", path)` group 1. -/
def msgsPathSeg (path : String) : Option String :=
  let r := path.data.reverse
  let seg := r.takeWhile (fun c => c ≠ '/')
  if seg.isEmpty then none
  else if ("/api/im/messages/".data.reverse).isPrefixOf (r.drop seg.length) then
    some (String.mk seg.reverse)
  else none

/-- OfflineManager._read_from_cache; `int(limit)` may raise, which
propagates out of dispatch. -/
def readFromCache (path : String) (query : JVal) (st : Storage) :
    Except String (Option JVal) :=
  let contactsStep : Option JVal :=
    if endsWithStr path "/api/im/contacts" then
      if st.contacts.isEmpty then none
      else some (.jobj [("ok", .jbool true), ("data", .jarr st.contacts)])
    else none
  let msgStep : Except String (Option JVal) :=
    match msgsPathSeg path with
    | some convId =>
        match pyGetDE (pyOr query (.jobj [])) "limit" (.jstr "50") with
        | .error e => .error e
        | .ok lv =>
            match pyIntE lv with
            | .error e => .error e
            | .ok limit =>
                match pyGetE (pyOr query (.jobj [])) "before" with
                | .error e => .error e
                | .ok beforev =>
                    let messages := getMessages (.jstr convId) limit beforev st
                    if messages.isEmpty then .ok contactsStep
                    else
                      .ok (some (.jobj [("ok", .jbool true),
                        ("data", .jarr (messages.map msgToDict))]))
    | none => .ok contactsStep
  if endsWithStr path "/api/im/conversations" then
    let convos := getConversations 50 st
    if convos.isEmpty then msgStep
    else .ok (some (.jobj [("ok", .jbool true), ("data", .jarr (convos.map convToDict))]))
  else msgStep

/-- The `try` body of _cache_read_result: a raise aborts the remaining
blocks but keeps prior writes (the except swallows it). -/
def cacheTryBody (nowIso path : String) (data : JVal) (st : Storage) : Storage :=
  let st1 :=
    match data with
    | .jarr xs =>
        if endsWithStr path "/api/im/conversations" then
          match xs.mapM (dictToConvE nowIso) with
          | .ok convs => some (putConversations convs st)
          | .error _ => none
        else some st
    | _ => some st
  match st1 with
  | none => st
  | some st1 =>
      let st2 :=
        match msgsPathSeg path, data with
        | some convId, .jarr xs =>
            match xs.mapM (dictToMsgE convId) with
            | .ok msgs => some (putMessages msgs st1)
            | .error _ => none
        | _, _ => some st1
      match st2 with
      | none => st1
      | some st2 =>
          match data with
          | .jarr xs =>
              if endsWithStr path "/api/im/contacts" then putContacts xs st2 else st2
          | _ => st2

/-- OfflineManager._cache_read_result; the guard line sits outside the
`try` and its AttributeError propagates. -/
def cacheReadResult (nowIso path : String) (result : JVal) (st : Storage) :
    Except String Storage :=
  if truthy result = false then .ok st
  else
    match result with
    | .jobj fs =>
        if truthy ((jField fs "ok").getD .jnull) = false then .ok st
        else if truthy ((jField fs "data").getD .jnull) = false then .ok st
        else .ok (cacheTryBody nowIso path ((jField fs "data").getD .jnull) st)
    | _ => .error "AttributeError: get"

def okEmptyResult : JVal := .jobj [("ok", .jbool true), ("data", .jarr [])]

/-- The network-call-then-cache tail of OfflineManager.dispatch with its
offline degrade handler. -/
def dispatchNet (nowIso : String) (online : Bool) (netres : Except String JVal)
    (method path : String) (st : Storage) : Except String (Storage × JVal × List Emit) :=
  match netres with
  | .error e => if online then .error e else .ok (st, okEmptyResult, [])
  | .ok result =>
      if method == "GET" then
        match cacheReadResult nowIso path result st with
        | .ok st' => .ok (st', result, [])
        | .error e => if online then .error e else .ok (st, okEmptyResult, [])
      else .ok (st, result, [])

/-- OfflineManager.dispatch.  The single network round-trip outcome is the
parameter `netres`. -/
def dispatch (cid nowIso : String) (nowT : Int) (retryLimit : Nat) (online : Bool)
    (netres : Except String JVal) (method path : String) (body query : JVal)
    (st : Storage) : Except String (Storage × JVal × List Emit) :=
  match matchWriteOp method path with
  | some opType => dispatchWrite cid nowIso nowT retryLimit opType method path body query st
  | none =>
      if method == "GET" then
        match readFromCache path query st with
        | .error e => .error e
        | .ok (some cached) => .ok (st, cached, [])
        | .ok none => dispatchNet nowIso online netres method path st
      else dispatchNet nowIso online netres method path st

/-- Transient branch of the non-ok flush path.  `storage.nack` mutates the
very operation object the loop holds, so the `retries_left` payload reads
the already-incremented count. -/
def flushTransient (op : OutboxOperation) (emsg : JVal) (st : Storage) :
    Storage × List Emit × Option String :=
  let st2 := stNack op.id emsg (op.retries + 1) st
  let aliased := (dictGet op.id st2.outbox).getD op
  let rl : Int := (aliased.max_retries : Int) - (aliased.retries : Int) - 1
  (st2,
   [("outbox.failed",
     .pjson (.jobj [("op_id", .jstr op.id), ("error", emsg), ("retries_left", .jnum rl)]))],
   none)

/-- The `try` body of one flush iteration (after the network call, up to but
not including the `except` handler).  Returns the state and events produced
so far plus the exception message if one was raised. -/
def flushTry (op : OutboxOperation) (netres : Except String JVal) (st : Storage) :
    Storage × List Emit × Option String :=
  match netres with
  | .error e => (st, [], some e)
  | .ok result =>
      match pyGetE result "ok" with
      | .error e => (st, [], some e)
      | .ok okv =>
          if truthy okv then
            let st1 := stAck op.id st
            let datav :=
              match result with
              | .jobj fs => (jField fs "data").getD .jnull
              | _ => .jnull
            let ev1 : Emit :=
              ("outbox.confirmed",
               .pjson (.jobj [("op_id", .jstr op.id), ("server_data", datav)]))
            if op.type == "message.send" then
              match op.local_data with
              | some localMsg =>
                  match pyGetE (pyOr datav (.jobj [])) "message" with
                  | .error e => (st1, [ev1], some e)
                  | .ok smv =>
                      if truthy smv then
                        match smv with
                        | .jobj sf =>
                            let newMsg : StoredMessage :=
                              { id := (jField sf "id").getD localMsg.id
                                client_id := some op.id
                                conversation_id :=
                                  (jField sf "conversationId").getD localMsg.conversation_id
                                content := (jField sf "content").getD localMsg.content
                                type := (jField sf "type").getD localMsg.type
                                sender_id := (jField sf "senderId").getD localMsg.sender_id
                                parent_id := (jField sf "parentId").getD .jnull
                                status := "confirmed"
                                metadata := (jField sf "metadata").getD .jnull
                                created_at := (jField sf "createdAt").getD localMsg.created_at }
                            let st2 := putMessages [newMsg] (deleteMessage localMsg.id st1)
                            (st2,
                             [ev1,
                              ("message.confirmed",
                               .pjson (.jobj [("client_id", .jstr op.id),
                                 ("server_message", smv)]))],
                             none)
                        | _ => (st1, [ev1], some "AttributeError: get")
                      else (st1, [ev1], none)
              | none => (st1, [ev1], none)
            else (st1, [ev1], none)
          else
            let errd :=
              pyOr
                (match result with
                 | .jobj fs => (jField fs "error").getD .jnull
                 | _ => .jnull)
                (.jobj [])
            match pyGetDE errd "code" (.jstr "") with
            | .error e => (st, [], some e)
            | .ok code =>
                match pyGetDE errd "message" (.jstr "Request failed") with
                | .error e => (st, [], some e)
                | .ok emsg =>
                    match pyInE "TIMEOUT" code with
                    | .error e => (st, [], some e)
                    | .ok tIn =>
                        if tIn = false then
                          match pyInE "NETWORK" code with
                          | .error e => (st, [], some e)
                          | .ok nIn =>
                              if nIn = false then
                                let st2 := stNack op.id emsg op.max_retries st
                                let evs : List Emit :=
                                  [("outbox.failed",
                                    .pjson (.jobj [("op_id", .jstr op.id), ("error", emsg),
                                      ("retries_left", .jnum 0)]))]
                                (st2,
                                 if op.type == "message.send" then
                                   evs ++
                                     [("message.failed",
                                       .pjson (.jobj [("client_id", .jstr op.id),
                                         ("error", emsg)]))]
                                 else evs,
                                 none)
                              else flushTransient op emsg st
                        else flushTransient op emsg st

/-- One flush-loop iteration for a dequeued operation, including the
`except` handler (whose ceiling check also reads the aliased mutated
operation). -/
def flushAttempt (op : OutboxOperation) (netres : Except String JVal) (st : Storage) :
    Storage × List Emit :=
  let sending : Emit :=
    ("outbox.sending", .pjson (.jobj [("op_id", .jstr op.id), ("type", .jstr op.type)]))
  match flushTry op netres st with
  | (st', evs, none) => (st', sending :: evs)
  | (st', evs, some emsg) =>
      let st2 := stNack op.id (.jstr emsg) (op.retries + 1) st'
      let aliased := (dictGet op.id st2.outbox).getD op
      if aliased.retries + 1 ≥ aliased.max_retries then
        (st2,
         (sending :: evs) ++
           [("outbox.failed",
             .pjson (.jobj [("op_id", .jstr op.id), ("error", .jstr emsg),
               ("retries_left", .jnum 0)]))] ++
           (if op.type == "message.send" then
              [("message.failed",
                .pjson (.jobj [("client_id", .jstr op.id), ("error", .jstr emsg)]))]
            else []))
      else (st2, sending :: evs)

/-- Deterministic network oracle: method, path, json body, params. -/
abbrev NetFn := String → String → JVal → JVal → Except String JVal

def flushOps (net : NetFn) : List OutboxOperation → Storage → Storage × List Emit
  | [], st => (st, [])
  | op :: rest, st =>
      let r1 := flushAttempt op (net op.method op.path op.body op.query) st
      let r2 := flushOps net rest r1.1
      (r2.1, r1.2 ++ r2.2)

/-- OfflineManager.flush (sequentialised: the `_flushing` single-flight
guard is vacuous in a sequential model). -/
def flushRun (online : Bool) (net : NetFn) (st : Storage) : Storage × List Emit :=
  if online then
    let r := flushOps net (dequeueReady 10 st) st
    (r.1, r.2)
  else (st, [])

/-- message.new reducer of _apply_sync_event. -/
def applyMsgNew (e : SyncEvent) (st : Storage) : Except String Storage :=
  match pyOr e.data (.jobj []) with
  | .jobj fs =>
      let m : StoredMessage :=
        { id := (jField fs "id").getD (.jstr "")
          conversation_id :=
            pyOr ((jField fs "conversationId").getD .jnull)
              (pyOr e.conversation_id (.jstr ""))
          content := (jField fs "content").getD (.jstr "")
          type := (jField fs "type").getD (.jstr "text")
          sender_id := (jField fs "senderId").getD (.jstr "")
          parent_id := (jField fs "parentId").getD .jnull
          status := "confirmed"
          metadata := (jField fs "metadata").getD .jnull
          created_at := pyOr ((jField fs "createdAt").getD .jnull) e.evAt
          sync_seq := e.seq }
      .ok (putMessages [m] st)
  | _ => .error "AttributeError: get"

/-- message.edit reducer. -/
def applyMsgEdit (e : SyncEvent) (st : Storage) : Except String Storage :=
  match pyOr e.data (.jobj []) with
  | .jobj fs =>
      match dictGet ((jField fs "id").getD (.jstr "")) st.messages with
      | none => .ok st
      | some ex =>
          let ex' :=
            { ex with
              content := (jField fs "content").getD ex.content
              updated_at := e.evAt
              sync_seq := e.seq }
          .ok (putMessages [ex'] st)
  | _ => .error "AttributeError: get"

/-- message.delete reducer. -/
def applyMsgDelete (e : SyncEvent) (st : Storage) : Except String Storage :=
  match pyOr e.data (.jobj []) with
  | .jobj fs =>
      let mid := (jField fs "id").getD .jnull
      if truthy mid then .ok (deleteMessage mid st) else .ok st
  | _ => .error "AttributeError: get"

/-- conversation.create / conversation.update reducer. -/
def applyConvUpsert (e : SyncEvent) (st : Storage) : Except String Storage :=
  match pyOr e.data (.jobj []) with
  | .jobj fs =>
      let c : StoredConversation :=
        { id := pyOr ((jField fs "id").getD .jnull) (pyOr e.conversation_id (.jstr ""))
          type := (jField fs "type").getD (.jstr "direct")
          title := (jField fs "title").getD .jnull
          unread_count := (jField fs "unreadCount").getD (.jnum 0)
          members := (jField fs "members").getD .jnull
          metadata := (jField fs "metadata").getD .jnull
          sync_seq := e.seq
          updated_at := e.evAt
          last_message_at := (jField fs "lastMessageAt").getD .jnull }
      .ok (putConversations [c] st)
  | _ => .error "AttributeError: get"

/-- conversation.archive reducer. -/
def applyConvArchive (e : SyncEvent) (st : Storage) : Except String Storage :=
  match pyOr e.data (.jobj []) with
  | .jobj fs =>
      let cid := pyOr ((jField fs "id").getD .jnull) e.conversation_id
      if truthy cid then
        match dictGet cid st.conversations with
        | none => .ok st
        | some ex =>
            match pyOr ex.metadata (.jobj []) with
            | .jobj ms =>
                let ex' :=
                  { ex with
                    metadata := .jobj (dictPut "_archived" (.jbool true) (normFields ms))
                    sync_seq := e.seq
                    updated_at := e.evAt }
                .ok (putConversations [ex'] st)
            | _ => .error "TypeError: argument after must be a mapping"
      else .ok st
  | _ => .error "AttributeError: get"

/-- `any(m.get("userId") == uid for m in members)` with Python's
short-circuit. -/
def anyMemberMatches (uid : JVal) : List JVal → Except String Bool
  | [] => .ok false
  | m :: rest =>
      match m with
      | .jobj mf =>
          if ((jField mf "userId").getD .jnull) = uid then .ok true
          else anyMemberMatches uid rest
      | _ => .error "AttributeError: get"

/-- `[m for m in members if m.get("userId") != uid]`. -/
def filterMembersE (uid : JVal) : List JVal → Except String (List JVal)
  | [] => .ok []
  | m :: rest =>
      match m with
      | .jobj mf =>
          match filterMembersE uid rest with
          | .error e => .error e
          | .ok rest' =>
              .ok (if ((jField mf "userId").getD .jnull) = uid then rest' else m :: rest')
      | _ => .error "AttributeError: get"

/-- participant.add reducer. -/
def applyPartAdd (e : SyncEvent) (st : Storage) : Except String Storage :=
  match pyOr e.data (.jobj []) with
  | .jobj fs =>
      let cid := pyOr ((jField fs "conversationId").getD .jnull) e.conversation_id
      if truthy cid then
        match dictGet cid st.conversations with
        | none => .ok st
        | some ex =>
            if ex.members = .jnull then .ok st
            else
              match pyIterE ex.members with
              | .error e => .error e
              | .ok elems =>
                  match anyMemberMatches ((jField fs "userId").getD .jnull) elems with
                  | .error e => .error e
                  | .ok true => .ok st
                  | .ok false =>
                      match ex.members with
                      | .jarr ms =>
                          let newMember : JVal :=
                            .jobj
                              [("userId", (jField fs "userId").getD (.jstr "")),
                               ("username", (jField fs "username").getD (.jstr "")),
                               ("displayName", (jField fs "displayName").getD .jnull),
                               ("role", (jField fs "role").getD (.jstr "member"))]
                          let ex' :=
                            { ex with
                              members := .jarr (ms ++ [newMember])
                              sync_seq := e.seq
                              updated_at := e.evAt }
                          .ok (putConversations [ex'] st)
                      | _ => .error "AttributeError: append"
      else .ok st
  | _ => .error "AttributeError: get"

/-- participant.remove reducer. -/
def applyPartRemove (e : SyncEvent) (st : Storage) : Except String Storage :=
  match pyOr e.data (.jobj []) with
  | .jobj fs =>
      let cid := pyOr ((jField fs "conversationId").getD .jnull) e.conversation_id
      if truthy cid then
        match dictGet cid st.conversations with
        | none => .ok st
        | some ex =>
            if ex.members = .jnull then .ok st
            else
              match pyIterE ex.members with
              | .error e => .error e
              | .ok elems =>
                  match filterMembersE ((jField fs "userId").getD .jnull) elems with
                  | .error e => .error e
                  | .ok filtered =>
                      let ex' :=
                        { ex with
                          members := .jarr filtered
                          sync_seq := e.seq
                          updated_at := e.evAt }
                      .ok (putConversations [ex'] st)
      else .ok st
  | _ => .error "AttributeError: get"

/-- OfflineManager._apply_sync_event. -/
def applySyncEvent (e : SyncEvent) (st : Storage) : Except String Storage :=
  if e.type = .jstr "message.new" then applyMsgNew e st
  else if e.type = .jstr "message.edit" then applyMsgEdit e st
  else if e.type = .jstr "message.delete" then applyMsgDelete e st
  else if e.type = .jstr "conversation.create" ∨ e.type = .jstr "conversation.update" then
    applyConvUpsert e st
  else if e.type = .jstr "conversation.archive" then applyConvArchive e st
  else if e.type = .jstr "participant.add" then applyPartAdd e st
  else if e.type = .jstr "participant.remove" then applyPartRemove e st
  else .ok st

/-- OfflineManager.handle_realtime_event (`nowIso` is `datetime.now`). -/
def handleRealtimeEvent (etype : String) (payload : JVal) (nowIso : String)
    (st : Storage) : Except String Storage :=
  if etype == "message.new" && truthy payload then
    match payload with
    | .jobj fs =>
        .ok
          (putMessages
            [{ id := (jField fs "id").getD (.jstr "")
               conversation_id := (jField fs "conversationId").getD (.jstr "")
               content := (jField fs "content").getD (.jstr "")
               type := (jField fs "type").getD (.jstr "text")
               sender_id := (jField fs "senderId").getD (.jstr "")
               parent_id := (jField fs "parentId").getD .jnull
               status := "confirmed"
               metadata := (jField fs "metadata").getD .jnull
               created_at := pyOr ((jField fs "createdAt").getD .jnull) (.jstr nowIso) }]
            st)
    | _ => .error "AttributeError: get"
  else .ok st

/-- Construction of a SyncEvent from a raw event dict inside sync(). -/
def mkEventE (r : JVal) : Except String SyncEvent :=
  match r with
  | .jobj fs =>
      .ok
        { seq := (jField fs "seq").getD (.jnum 0)
          type := (jField fs "type").getD (.jstr "")
          data := (jField fs "data").getD .jnull
          conversation_id := (jField fs "conversationId").getD .jnull
          evAt := (jField fs "at").getD (.jstr "") }
  | _ => .error "AttributeError: get"

/-- The event loop of one sync page: events are applied in order; a raise
keeps the effects of the events already applied. -/
def applyEvents : List JVal → Storage → Storage × Option String
  | [], st => (st, none)
  | r :: rest, st =>
      match mkEventE r with
      | .error e => (st, some e)
      | .ok ev =>
          match applySyncEvent ev st with
          | .error e => (st, some e)
          | .ok st' => applyEvents rest st'

/-- Parsing of one sync page response (the part of the loop body before
events are applied). -/
def pageParse (page : JVal) (cursor : String) :
    Except String (List JVal × String × Bool) :=
  match page with
  | .jobj fs =>
      if truthy ((jField fs "ok").getD .jnull) = false ∨
          truthy ((jField fs "data").getD .jnull) = false then
        .error "RuntimeError: Sync failed"
      else
        match (jField fs "data").getD .jnull with
        | .jobj ds =>
            match pyIterE ((jField ds "events").getD (.jarr [])) with
            | .error e => .error e
            | .ok evs =>
                .ok
                  (evs, pyStrJ ((jField ds "cursor").getD (.jstr cursor)),
                   truthy ((jField ds "hasMore").getD (.jbool false)))
        | _ => .error "AttributeError: get"
  | _ => .error "AttributeError: get"

/-- One iteration of the sync while-loop: parse the page, apply its events,
persist the page cursor. -/
def pageStep (page : JVal) (cursor : String) (st : Storage) :
    Storage × Except String (String × Bool) :=
  match pageParse page cursor with
  | .error e => (st, .error e)
  | .ok (evs, ncs, hm) =>
      match applyEvents evs st with
      | (st', some e) => (st', .error e)
      | (st', none) => (setCursorSt "global_sync" ncs st', .ok (ncs, hm))

/-- Outcome of a sync() run over a finite script of page responses. -/
inductive SyncOut where
  | done (st : Storage) : SyncOut
  | failed (st : Storage) : SyncOut
  | outOfPages (st : Storage) : SyncOut
deriving DecidableEq

/-- The while-loop of sync() driven by the scripted page responses;
`outOfPages` marks a run that would request more pages than scripted. -/
def syncLoop : List JVal → String → Storage → SyncOut
  | [], _, st => .outOfPages st
  | page :: rest, cursor, st =>
      match pageStep page cursor st with
      | (st', .error _) => .failed st'
      | (st', .ok (ncs, hm)) => if hm then syncLoop rest ncs st' else .done st'

/-- `await self.storage.get_cursor("global_sync") or "0"`. -/
def startCursor (st : Storage) : String :=
  match dictGet "global_sync" st.cursors with
  | some s => if s == "" then "0" else s
  | none => "0"

/-- OfflineManager.sync over a scripted page list (state guards are
vacuous in the sequential model; called only while online). -/
def syncRun (pages : List JVal) (st : Storage) : SyncOut :=
  syncLoop pages (startCursor st) st

/-- The numeric `cursor` field of a page's data, when present. -/
def pageCursorNum (page : JVal) : Option Int :=
  match page with
  | .jobj fs =>
      match (jField fs "data").getD .jnull with
      | .jobj ds =>
          match jField ds "cursor" with
          | some (.jnum n) => some n
          | _ => none
      | _ => none
  | _ => none

section DictLemmas

variable {K V : Type} [DecidableEq K]

theorem dictGet_put_self (k : K) (v : V) :
    ∀ m : List (K × V), dictGet k (dictPut k v m) = some v
  | [] => by simp [dictPut, dictGet]
  | (k', v') :: rest => by
      by_cases h : k' = k
      · simp [dictPut, dictGet, h]
      · simp [dictPut, dictGet, h, dictGet_put_self k v rest]

theorem dictGet_put_ne (k'' k : K) (v : V) (h : k'' ≠ k) :
    ∀ m : List (K × V), dictGet k'' (dictPut k v m) = dictGet k'' m
  | [] => by simp [dictPut, dictGet, Ne.symm h]
  | (k', v') :: rest => by
      by_cases hk : k' = k
      · subst hk
        simp [dictPut, dictGet, Ne.symm h]
      · simp [dictPut, dictGet, hk, dictGet_put_ne k'' k v h rest]

theorem dictPut_self (k : K) (v : V) :
    ∀ m : List (K × V), dictGet k m = some v → dictPut k v m = m
  | [], h => by simp [dictGet] at h
  | (k', v') :: rest, h => by
      by_cases hk : k' = k
      · simp only [dictGet, hk, if_pos] at h
        injection h with hv
        simp [dictPut, hk, hv]
      · simp only [dictGet, hk, if_neg, not_false_iff] at h
        simp [dictPut, hk, dictPut_self k v rest h]

theorem dictPut_put_same (k : K) (v : V) (m : List (K × V)) :
    dictPut k v (dictPut k v m) = dictPut k v m :=
  dictPut_self k v (dictPut k v m) (dictGet_put_self k v m)

theorem dictPop_put_fresh (k : K) (v : V) :
    ∀ m : List (K × V), dictGet k m = none → dictPop k (dictPut k v m) = m
  | [], _ => by simp [dictPut, dictPop]
  | (k', v') :: rest, h => by
      by_cases hk : k' = k
      · simp [dictGet, hk] at h
      · simp only [dictGet, hk, if_neg, not_false_iff] at h
        simp [dictPut, dictPop, hk, dictPop_put_fresh k v rest h]

theorem dictGet_eq_none_iff (k : K) :
    ∀ m : List (K × V), dictGet k m = none ↔ k ∉ m.map Prod.fst
  | [] => by simp [dictGet]
  | (k', v') :: rest => by
      by_cases hk : k' = k
      · subst hk
        simp [dictGet]
      · simp only [dictGet, hk, if_neg, not_false_iff, List.map_cons, List.mem_cons]
        constructor
        · intro h hmem
          rcases hmem with h1 | h1
          · exact hk h1.symm
          · exact (dictGet_eq_none_iff k rest).mp h h1
        · intro h
          exact (dictGet_eq_none_iff k rest).mpr (fun h1 => h (Or.inr h1))

theorem dictPop_not_mem (k : K) :
    ∀ m : List (K × V), dictGet k m = none → dictPop k m = m
  | [], _ => rfl
  | (k', v') :: rest, h => by
      by_cases hk : k' = k
      · simp [dictGet, hk] at h
      · simp only [dictGet, hk, if_neg, not_false_iff] at h
        simp [dictPop, hk, dictPop_not_mem k rest h]

theorem dictGet_pop_self (k : K) :
    ∀ m : List (K × V), (m.map Prod.fst).Nodup → dictGet k (dictPop k m) = none
  | [], _ => rfl
  | (k', v') :: rest, h => by
      simp only [List.map_cons, List.nodup_cons] at h
      by_cases hk : k' = k
      · subst hk
        simp only [dictPop, if_pos]
        exact (dictGet_eq_none_iff k' rest).mpr h.1
      · simp [dictPop, hk, dictGet, dictGet_pop_self k rest h.2]

theorem countP_dictPut_unique (p : K × V → Bool) (k : K) (v : V) :
    ∀ m : List (K × V), (∀ kv ∈ m, p kv = false) → (∀ k', p (k', v) = true) →
      (dictPut k v m).countP p = 1
  | [], _, hp => by simp [dictPut, List.countP_cons, hp]
  | (k', v') :: rest, hall, hp => by
      by_cases hk : k' = k
      · have hz : rest.countP p = 0 :=
          List.countP_eq_zero.mpr (fun kv hkv => by
            simpa using hall kv (List.mem_cons_of_mem _ hkv))
        simp [dictPut, hk, List.countP_cons, hp, hz]
      · have h0 : p (k', v') = false := hall (k', v') (List.mem_cons_self _ _)
        simp [dictPut, hk, List.countP_cons, h0,
          countP_dictPut_unique p k v rest
            (fun kv hkv => hall kv (List.mem_cons_of_mem _ hkv)) hp]

theorem dictPut_append_fresh (k : K) (v : V) :
    ∀ m : List (K × V), dictGet k m = none → dictPut k v m = m ++ [(k, v)]
  | [], _ => rfl
  | (k', v') :: rest, h => by
      by_cases hk : k' = k
      · simp [dictGet, hk] at h
      · simp only [dictGet, hk, if_neg, not_false_iff] at h
        simp [dictPut, hk, dictPut_append_fresh k v rest h]

theorem mem_keys_dictPut (a k : K) (v : V) :
    ∀ m : List (K × V), a ∈ (dictPut k v m).map Prod.fst →
      a ∈ m.map Prod.fst ∨ a = k
  | [], h => by
      simp only [dictPut, List.map_cons, List.map_nil, List.mem_singleton] at h
      exact Or.inr h
  | (k', v') :: rest, h => by
      by_cases hk : k' = k
      · rw [show dictPut k v ((k', v') :: rest) = (k', v) :: rest from by
          simp [dictPut, hk]] at h
        simp only [List.map_cons, List.mem_cons] at h
        rcases h with h | h
        · exact Or.inl (by rw [List.map_cons]; exact List.mem_cons.mpr (Or.inl h))
        · exact Or.inl (by rw [List.map_cons]; exact List.mem_cons.mpr (Or.inr h))
      · rw [show dictPut k v ((k', v') :: rest) = (k', v') :: dictPut k v rest from by
          simp [dictPut, hk]] at h
        simp only [List.map_cons, List.mem_cons] at h
        rcases h with h | h
        · exact Or.inl (by rw [List.map_cons]; exact List.mem_cons.mpr (Or.inl h))
        · rcases mem_keys_dictPut a k v rest h with h' | h'
          · exact Or.inl (by rw [List.map_cons]; exact List.mem_cons.mpr (Or.inr h'))
          · exact Or.inr h'

theorem nodup_keys_dictPut (k : K) (v : V) :
    ∀ m : List (K × V), (m.map Prod.fst).Nodup → ((dictPut k v m).map Prod.fst).Nodup
  | [], _ => by simp [dictPut]
  | (k', v') :: rest, h => by
      simp only [List.map_cons, List.nodup_cons] at h
      by_cases hk : k' = k
      · rw [show dictPut k v ((k', v') :: rest) = (k', v) :: rest from by
          simp [dictPut, hk]]
        rw [List.map_cons, List.nodup_cons]
        exact h
      · rw [show dictPut k v ((k', v') :: rest) = (k', v') :: dictPut k v rest from by
          simp [dictPut, hk]]
        rw [List.map_cons, List.nodup_cons]
        refine ⟨?_, nodup_keys_dictPut k v rest h.2⟩
        intro hmem
        rcases mem_keys_dictPut k' k v rest hmem with h' | h'
        · exact h.1 h'
        · exact hk h'

end DictLemmas

theorem normAux_append :
    ∀ (fs acc : List (String × JVal)), (fs.map Prod.fst).Nodup →
      (∀ a ∈ fs.map Prod.fst, a ∉ acc.map Prod.fst) →
      fs.foldl (fun a kv => dictPut kv.1 kv.2 a) acc = acc ++ fs
  | [], acc, _, _ => by simp
  | (k, v) :: rest, acc, hnd, hdisj => by
      simp only [List.map_cons, List.nodup_cons] at hnd
      have hfresh : dictGet k acc = none :=
        (dictGet_eq_none_iff k acc).mpr
          (hdisj k (by rw [List.map_cons]; exact List.mem_cons.mpr (Or.inl rfl)))
      have hstep : dictPut k v acc = acc ++ [(k, v)] := dictPut_append_fresh k v acc hfresh
      have hdisj2 : ∀ a ∈ rest.map Prod.fst, a ∉ (acc ++ [(k, v)]).map Prod.fst := by
        intro a ha hmem
        rw [List.map_append, List.mem_append] at hmem
        rcases hmem with h1 | h1
        · exact hdisj a (by rw [List.map_cons]; exact List.mem_cons.mpr (Or.inr ha)) h1
        · have hak : a = k := by simpa using h1
          exact hnd.1 (hak ▸ ha)
      have hrec := normAux_append rest (acc ++ [(k, v)]) hnd.2 hdisj2
      simp only [List.foldl_cons, hstep, hrec, List.append_assoc, List.singleton_append]

theorem normFields_self (fs : List (String × JVal)) (h : (fs.map Prod.fst).Nodup) :
    normFields fs = fs := by
  have := normAux_append fs [] h (by simp)
  simpa [normFields] using this

theorem normAux_nodup :
    ∀ (fs acc : List (String × JVal)), (acc.map Prod.fst).Nodup →
      (((fs.foldl (fun a kv => dictPut kv.1 kv.2 a) acc)).map Prod.fst).Nodup
  | [], _, h => h
  | (k, v) :: rest, acc, h =>
      normAux_nodup rest (dictPut k v acc) (nodup_keys_dictPut k v acc h)

theorem normFields_nodup (fs : List (String × JVal)) :
    ((normFields fs).map Prod.fst).Nodup :=
  normAux_nodup fs [] (by simp)

theorem mem_insIns {α : Type} (keep : α → α → Bool) (a x : α) :
    ∀ l : List α, a ∈ insIns keep x l → a = x ∨ a ∈ l
  | [], h => by simpa [insIns] using h
  | y :: ys, h => by
      by_cases hk : keep y x = true
      · rw [show insIns keep x (y :: ys) = y :: insIns keep x ys from by
          simp [insIns, hk]] at h
        rcases List.mem_cons.mp h with h1 | h1
        · exact Or.inr (by rw [h1]; exact List.mem_cons_self _ _)
        · rcases mem_insIns keep a x ys h1 with h' | h'
          · exact Or.inl h'
          · exact Or.inr (List.mem_cons_of_mem _ h')
      · rw [show insIns keep x (y :: ys) = x :: y :: ys from by simp [insIns, hk]] at h
        rcases List.mem_cons.mp h with h1 | h1
        · exact Or.inl h1
        · exact Or.inr h1

theorem mem_foldl_insIns {α : Type} (keep : α → α → Bool) (a : α) :
    ∀ (l acc : List α), a ∈ l.foldl (fun acc x => insIns keep x acc) acc →
      a ∈ acc ∨ a ∈ l
  | [], acc, h => Or.inl h
  | x :: xs, acc, h => by
      rcases mem_foldl_insIns keep a xs (insIns keep x acc) h with h' | h'
      · rcases mem_insIns keep a x acc h' with h'' | h''
        · exact Or.inr (by simp [h''])
        · exact Or.inl h''
      · exact Or.inr (by simp [h'])

theorem mem_pySortBy {α : Type} (keep : α → α → Bool) (a : α) (l : List α)
    (h : a ∈ pySortBy keep l) : a ∈ l := by
  rcases mem_foldl_insIns keep a l [] h with h' | h'
  · simp at h'
  · exact h'

theorem mem_dequeueReady (limit : Nat) (st : Storage) (o : OutboxOperation)
    (h : o ∈ dequeueReady limit st) : isReady o = true := by
  have h1 := List.mem_of_mem_take h
  have h2 := mem_pySortBy _ o _ h1
  exact (List.mem_filter.mp h2).2

theorem getD_getD {α : Type} (o : Option α) (x : α) : o.getD (o.getD x) = o.getD x := by
  cases o <;> rfl

theorem dictPut_ne_nil {K V : Type} [DecidableEq K] (k : K) (v : V) :
    ∀ m : List (K × V), dictPut k v m ≠ []
  | [] => by simp [dictPut]
  | (k', v') :: rest => by
      by_cases hk : k' = k <;> simp [dictPut, hk]

theorem putMessages_single (m : StoredMessage) (st : Storage) :
    putMessages [m] st = { st with messages := dictPut m.id m st.messages } := rfl

theorem putConversations_single (c : StoredConversation) (st : Storage) :
    putConversations [c] st = { st with conversations := dictPut c.id c st.conversations } :=
  rfl

theorem anyMemberMatches_append_of_false (u : JVal) :
    ∀ xs ys, anyMemberMatches u xs = .ok false →
      anyMemberMatches u (xs ++ ys) = anyMemberMatches u ys
  | [], _, _ => rfl
  | m :: rest, ys, h => by
      match m with
      | .jobj mf =>
          by_cases hm : ((jField mf "userId").getD .jnull) = u
          · simp [anyMemberMatches, hm] at h
          · simp only [anyMemberMatches, hm, if_neg, not_false_iff, List.cons_append] at h ⊢
            exact anyMemberMatches_append_of_false u rest ys h
      | .jnull => simp [anyMemberMatches] at h
      | .jbool b => simp [anyMemberMatches] at h
      | .jnum n => simp [anyMemberMatches] at h
      | .jstr s => simp [anyMemberMatches] at h
      | .jarr xs' => simp [anyMemberMatches] at h

theorem filterMembersE_idem (u : JVal) :
    ∀ xs ys, filterMembersE u xs = .ok ys → filterMembersE u ys = .ok ys
  | [], ys, h => by
      simp only [filterMembersE] at h
      injection h with h'
      rw [← h']
      rfl
  | m :: rest, ys, h => by
      match m with
      | .jobj mf =>
          simp only [filterMembersE] at h
          cases hrest : filterMembersE u rest with
          | error e => rw [hrest] at h; exact absurd h (by simp)
          | ok rest' =>
              rw [hrest] at h
              simp only [] at h
              injection h with h'
              have ih := filterMembersE_idem u rest rest' hrest
              by_cases hm : ((jField mf "userId").getD .jnull) = u
              · rw [← h']
                simp only [hm, if_pos]
                exact ih
              · rw [← h']
                simp only [hm, if_neg, not_false_iff, filterMembersE, ih]
      | .jnull => simp [filterMembersE] at h
      | .jbool b => simp [filterMembersE] at h
      | .jnum n => simp [filterMembersE] at h
      | .jstr s => simp [filterMembersE] at h
      | .jarr xs' => simp [filterMembersE] at h

/-- message.new applies the same upsert twice. -/
theorem applyMsgNew_idem (e : SyncEvent) (st st' : Storage)
    (h : applyMsgNew e st = .ok st') : applyMsgNew e st' = .ok st' := by
  unfold applyMsgNew at h ⊢
  split at h
  next fs heq =>
    injection h with h'
    rw [← h']
    simp [putMessages_single, dictPut_put_same]
  next heq => exact absurd h (by simp)

/-- conversation.create / conversation.update applies the same upsert twice. -/
theorem applyConvUpsert_idem (e : SyncEvent) (st st' : Storage)
    (h : applyConvUpsert e st = .ok st') : applyConvUpsert e st' = .ok st' := by
  unfold applyConvUpsert at h ⊢
  split at h
  next fs heq =>
    injection h with h'
    rw [← h']
    simp [putConversations_single, dictPut_put_same]
  next heq => exact absurd h (by simp)

/-- message.edit recomputes the same record and re-puts it. -/
theorem applyMsgEdit_idem (e : SyncEvent) (st st' : Storage)
    (h : applyMsgEdit e st = .ok st') : applyMsgEdit e st' = .ok st' := by
  unfold applyMsgEdit at h ⊢
  split at h
  next fs heq =>
    split at h
    next hnone =>
      injection h with h'
      subst h'
      rw [hnone]
    next ex hsome =>
      injection h with h'
      subst h'
      by_cases hid : ex.id = (jField fs "id").getD (.jstr "")
      · have hscr :
            dictGet ((jField fs "id").getD (.jstr ""))
              (putMessages
                [{ ex with
                    content := (jField fs "content").getD ex.content
                    updated_at := e.evAt
                    sync_seq := e.seq }] st).messages =
            some
              { ex with
                content := (jField fs "content").getD ex.content
                updated_at := e.evAt
                sync_seq := e.seq } := by
          rw [putMessages_single]
          show dictGet _ (dictPut ex.id _ st.messages) = _
          rw [hid]
          exact dictGet_put_self _ _ _
        rw [hscr]
        simp [putMessages_single, dictPut_put_same, getD_getD]
      · have hscr :
            dictGet ((jField fs "id").getD (.jstr ""))
              (putMessages
                [{ ex with
                    content := (jField fs "content").getD ex.content
                    updated_at := e.evAt
                    sync_seq := e.seq }] st).messages = some ex := by
          rw [putMessages_single]
          show dictGet _ (dictPut ex.id _ st.messages) = _
          rw [dictGet_put_ne _ ex.id _ (fun hmm => hid hmm.symm)]
          exact hsome
        rw [hscr]
        simp [putMessages_single, dictPut_put_same]
  next heq => exact absurd h (by simp)

/-- message.delete deletes by id twice (needs Python-dict key uniqueness). -/
theorem applyMsgDelete_idem (e : SyncEvent) (st st' : Storage)
    (hwf : (st.messages.map Prod.fst).Nodup)
    (h : applyMsgDelete e st = .ok st') : applyMsgDelete e st' = .ok st' := by
  unfold applyMsgDelete at h ⊢
  split at h
  next fs heq =>
    by_cases ht : truthy ((jField fs "id").getD .jnull) = true
    · rw [if_pos ht] at h
      injection h with h'
      subst h'
      rw [if_pos ht]
      unfold deleteMessage
      have hpop :
          dictGet ((jField fs "id").getD .jnull) (dictPop ((jField fs "id").getD .jnull) st.messages) = none :=
        dictGet_pop_self _ st.messages hwf
      simp [dictPop_not_mem _ _ hpop]
    · rw [if_neg ht] at h
      injection h with h'
      subst h'
      rw [if_neg ht]
  next heq => exact absurd h (by simp)

/-- conversation.archive re-merges an already-archived metadata dict. -/
theorem applyConvArchive_idem (e : SyncEvent) (st st' : Storage)
    (h : applyConvArchive e st = .ok st') : applyConvArchive e st' = .ok st' := by
  unfold applyConvArchive at h ⊢
  split at h
  next fs heq =>
    by_cases ht : truthy (pyOr ((jField fs "id").getD .jnull) e.conversation_id) = true
    · rw [if_pos ht] at h ⊢
      split at h
      next hnone =>
        injection h with h'
        subst h'
        rw [hnone]
      next ex hsome =>
        split at h
        next ms hms =>
          injection h with h'
          subst h'
          have hmd :
              pyOr (.jobj (dictPut "_archived" (.jbool true) (normFields ms))) (.jobj []) =
                .jobj (dictPut "_archived" (.jbool true) (normFields ms)) := by
            unfold pyOr
            rw [if_pos]
            show (!(dictPut "_archived" (JVal.jbool true) (normFields ms)).isEmpty) = true
            cases hnil : dictPut "_archived" (JVal.jbool true) (normFields ms) with
            | nil => exact absurd hnil (dictPut_ne_nil _ _ _)
            | cons a l => rfl
          by_cases hid : ex.id = pyOr ((jField fs "id").getD .jnull) e.conversation_id
          · have hscr :
                dictGet (pyOr ((jField fs "id").getD .jnull) e.conversation_id)
                  (putConversations
                    [{ ex with
                        metadata := .jobj (dictPut "_archived" (.jbool true) (normFields ms))
                        sync_seq := e.seq
                        updated_at := e.evAt }] st).conversations =
                some
                  { ex with
                    metadata := .jobj (dictPut "_archived" (.jbool true) (normFields ms))
                    sync_seq := e.seq
                    updated_at := e.evAt } := by
              rw [putConversations_single]
              show dictGet _ (dictPut ex.id _ st.conversations) = _
              rw [hid]
              exact dictGet_put_self _ _ _
            split
            next hnone2 =>
              rw [hscr] at hnone2
            next ex2 hsome2 =>
              rw [hscr] at hsome2
              injection hsome2 with hex2
              subst hex2
              split
              next ms2 hms2 =>
                rw [hmd] at hms2
                injection hms2 with hms2'
                subst hms2'
                have hnorm :
                    normFields (dictPut "_archived" (.jbool true) (normFields ms)) =
                      dictPut "_archived" (.jbool true) (normFields ms) :=
                  normFields_self _ (nodup_keys_dictPut _ _ _ (normFields_nodup ms))
                have hput :
                    dictPut "_archived" (.jbool true)
                        (normFields (dictPut "_archived" (.jbool true) (normFields ms))) =
                      dictPut "_archived" (.jbool true) (normFields ms) := by
                  rw [hnorm]
                  exact dictPut_self _ _ _ (dictGet_put_self _ _ _)
                simp [hput, putConversations_single, dictPut_put_same]
              next hms2 => exact absurd hmd (hms2 _)
          · have hscr :
                dictGet (pyOr ((jField fs "id").getD .jnull) e.conversation_id)
                  (putConversations
                    [{ ex with
                        metadata := .jobj (dictPut "_archived" (.jbool true) (normFields ms))
                        sync_seq := e.seq
                        updated_at := e.evAt }] st).conversations = some ex := by
              rw [putConversations_single]
              show dictGet _ (dictPut ex.id _ st.conversations) = _
              rw [dictGet_put_ne _ ex.id _ (fun hmm => hid hmm.symm)]
              exact hsome
            split
            next hnone2 =>
              rw [hscr] at hnone2
            next ex2 hsome2 =>
              rw [hscr] at hsome2
              injection hsome2 with hex2
              subst hex2
              split
              next ms2 hms2 =>
                rw [hms] at hms2
                injection hms2 with hms2'
                subst hms2'
                simp [putConversations_single, dictPut_put_same]
              next hms2 => exact absurd hms (hms2 _)
        next hms => exact absurd h (by simp)
    · rw [if_neg ht] at h ⊢
  next heq => exact absurd h (by simp)

/-- The participant.add payload carries a "userId" key (the dedup key the
reducer compares against the key it stores). -/
def addHasUserId (e : SyncEvent) : Bool :=
  match pyOr e.data (.jobj []) with
  | .jobj fs => (jField fs "userId").isSome
  | _ => true

/-- participant.add dedups on replay when the payload carries a userId. -/
theorem applyPartAdd_idem (e : SyncEvent) (st st' : Storage)
    (hadd : addHasUserId e = true)
    (h : applyPartAdd e st = .ok st') : applyPartAdd e st' = .ok st' := by
  have h0 := h
  unfold applyPartAdd at h
  split at h
  next fs heq =>
    have hu : (jField fs "userId").isSome = true := by
      unfold addHasUserId at hadd
      rw [heq] at hadd
      exact hadd
    obtain ⟨u, hu'⟩ := Option.isSome_iff_exists.mp hu
    by_cases ht :
        truthy (pyOr ((jField fs "conversationId").getD .jnull) e.conversation_id) = true
    · rw [if_pos ht] at h
      split at h
      next hnone =>
        injection h with h'
        subst h'
        exact h0
      next ex hsome =>
        by_cases hnull : ex.members = JVal.jnull
        · rw [if_pos hnull] at h
          injection h with h'
          subst h'
          exact h0
        · rw [if_neg hnull] at h
          split at h
          next e1 hiter => exact absurd h (by simp)
          next elems hiter =>
            split at h
            next e2 hany => exact absurd h (by simp)
            next hany =>
              injection h with h'
              subst h'
              exact h0
            next hany =>
              split at h
              next ms hmem =>
                injection h with h'
                subst h'
                unfold applyPartAdd
                split
                next fs2 heq2 =>
                  rw [heq] at heq2
                  injection heq2 with heq2'
                  subst heq2'
                  rw [if_pos ht]
                  by_cases hid :
                      ex.id = pyOr ((jField fs "conversationId").getD .jnull) e.conversation_id
                  · have hscr :
                        dictGet (pyOr ((jField fs "conversationId").getD .jnull) e.conversation_id)
                          (putConversations
                            [{ ex with
                                members := .jarr (ms ++
                                  [.jobj
                                    [("userId", (jField fs "userId").getD (.jstr "")),
                                     ("username", (jField fs "username").getD (.jstr "")),
                                     ("displayName", (jField fs "displayName").getD .jnull),
                                     ("role", (jField fs "role").getD (.jstr "member"))]])
                                sync_seq := e.seq
                                updated_at := e.evAt }] st).conversations =
                        some
                          { ex with
                            members := .jarr (ms ++
                              [.jobj
                                [("userId", (jField fs "userId").getD (.jstr "")),
                                 ("username", (jField fs "username").getD (.jstr "")),
                                 ("displayName", (jField fs "displayName").getD .jnull),
                                 ("role", (jField fs "role").getD (.jstr "member"))]])
                            sync_seq := e.seq
                            updated_at := e.evAt } := by
                      rw [putConversations_single]
                      show dictGet _ (dictPut ex.id _ st.conversations) = _
                      rw [hid]
                      exact dictGet_put_self _ _ _
                    split
                    next hn2 => rw [hscr] at hn2
                    next ex2 hs2 =>
                      rw [hscr] at hs2
                      injection hs2 with he2
                      subst he2
                      rw [if_neg (by simp)]
                      split
                      next e3 hiter3 => simp [pyIterE] at hiter3
                      next elems2 hiter2 =>
                        simp only [pyIterE] at hiter2
                        injection hiter2 with hiter2'
                        subst hiter2'
                        have hmemv : ex.members = JVal.jarr ms := hmem
                        have helems : elems = ms := by
                          rw [hmemv] at hiter
                          simp only [pyIterE] at hiter
                          injection hiter with hiter'
                          exact hiter'.symm
                        subst helems
                        have hany2 :
                            anyMemberMatches ((jField fs "userId").getD .jnull)
                              (elems ++
                                [.jobj
                                  [("userId", (jField fs "userId").getD (.jstr "")),
                                   ("username", (jField fs "username").getD (.jstr "")),
                                   ("displayName", (jField fs "displayName").getD .jnull),
                                   ("role", (jField fs "role").getD (.jstr "member"))]]) =
                              .ok true := by
                          rw [anyMemberMatches_append_of_false _ _ _ hany]
                          have hud : dictGet "userId" fs = some u := hu'
                          simp [anyMemberMatches, jField, dictGet, hud]
                        split
                        next e4 hany3 => rw [hany2] at hany3; exact absurd hany3 (by simp)
                        next hany3 => rfl
                        next hany3 => rw [hany2] at hany3; exact absurd hany3 (by simp)
                  · have hscr :
                        dictGet (pyOr ((jField fs "conversationId").getD .jnull) e.conversation_id)
                          (putConversations
                            [{ ex with
                                members := .jarr (ms ++
                                  [.jobj
                                    [("userId", (jField fs "userId").getD (.jstr "")),
                                     ("username", (jField fs "username").getD (.jstr "")),
                                     ("displayName", (jField fs "displayName").getD .jnull),
                                     ("role", (jField fs "role").getD (.jstr "member"))]])
                                sync_seq := e.seq
                                updated_at := e.evAt }] st).conversations = some ex := by
                      rw [putConversations_single]
                      show dictGet _ (dictPut ex.id _ st.conversations) = _
                      rw [dictGet_put_ne _ ex.id _ (fun hmm => hid hmm.symm)]
                      exact hsome
                    split
                    next hn2 => rw [hscr] at hn2
                    next ex2 hs2 =>
                      rw [hscr] at hs2
                      injection hs2 with he2
                      subst he2
                      rw [if_neg hnull]
                      split
                      next e3 hiter3 => rw [hiter] at hiter3; exact absurd hiter3 (by simp)
                      next elems2 hiter2 =>
                        rw [hiter] at hiter2
                        injection hiter2 with hiter2'
                        subst hiter2'
                        split
                        next e4 hany3 => rw [hany] at hany3; exact absurd hany3 (by simp)
                        next hany3 => rw [hany] at hany3
                        next hany3 =>
                          split
                          next ms2 hmem2 =>
                            rw [hmem] at hmem2
                            injection hmem2 with hmem2'
                            subst hmem2'
                            simp [putConversations_single, dictPut_put_same]
                          next hmem2 => exact absurd hmem (hmem2 _)
                next heq2 => exact absurd heq (heq2 _)
              next hmem => exact absurd h (by simp)
    · rw [if_neg ht] at h
      injection h with h'
      subst h'
      exact h0
  next heq => exact absurd h (by simp)

/-- participant.remove filters the member list twice. -/
theorem applyPartRemove_idem (e : SyncEvent) (st st' : Storage)
    (h : applyPartRemove e st = .ok st') : applyPartRemove e st' = .ok st' := by
  have h0 := h
  unfold applyPartRemove at h
  split at h
  next fs heq =>
    by_cases ht :
        truthy (pyOr ((jField fs "conversationId").getD .jnull) e.conversation_id) = true
    · rw [if_pos ht] at h
      split at h
      next hnone =>
        injection h with h'
        subst h'
        exact h0
      next ex hsome =>
        by_cases hnull : ex.members = JVal.jnull
        · rw [if_pos hnull] at h
          injection h with h'
          subst h'
          exact h0
        · rw [if_neg hnull] at h
          split at h
          next e1 hiter => exact absurd h (by simp)
          next elems hiter =>
            split at h
            next e2 hfil => exact absurd h (by simp)
            next filtered hfil =>
              injection h with h'
              subst h'
              unfold applyPartRemove
              split
              next fs2 heq2 =>
                rw [heq] at heq2
                injection heq2 with heq2'
                subst heq2'
                rw [if_pos ht]
                by_cases hid :
                    ex.id = pyOr ((jField fs "conversationId").getD .jnull) e.conversation_id
                · have hscr :
                      dictGet (pyOr ((jField fs "conversationId").getD .jnull) e.conversation_id)
                        (putConversations
                          [{ ex with
                              members := .jarr filtered
                              sync_seq := e.seq
                              updated_at := e.evAt }] st).conversations =
                      some
                        { ex with
                          members := .jarr filtered
                          sync_seq := e.seq
                          updated_at := e.evAt } := by
                    rw [putConversations_single]
                    show dictGet _ (dictPut ex.id _ st.conversations) = _
                    rw [hid]
                    exact dictGet_put_self _ _ _
                  split
                  next hn2 => rw [hscr] at hn2
                  next ex2 hs2 =>
                    rw [hscr] at hs2
                    injection hs2 with he2
                    subst he2
                    rw [if_neg (by simp)]
                    split
                    next e3 hiter3 => simp [pyIterE] at hiter3
                    next elems2 hiter2 =>
                      simp only [pyIterE] at hiter2
                      injection hiter2 with hiter2'
                      subst hiter2'
                      have hfil2 :
                          filterMembersE ((jField fs "userId").getD .jnull) filtered =
                            .ok filtered :=
                        filterMembersE_idem _ elems filtered hfil
                      split
                      next e4 hfil3 => rw [hfil2] at hfil3; exact absurd hfil3 (by simp)
                      next filtered2 hfil3 =>
                        rw [hfil2] at hfil3
                        injection hfil3 with hfil3'
                        subst hfil3'
                        simp [putConversations_single, dictPut_put_same]
                · have hscr :
                      dictGet (pyOr ((jField fs "conversationId").getD .jnull) e.conversation_id)
                        (putConversations
                          [{ ex with
                              members := .jarr filtered
                              sync_seq := e.seq
                              updated_at := e.evAt }] st).conversations = some ex := by
                    rw [putConversations_single]
                    show dictGet _ (dictPut ex.id _ st.conversations) = _
                    rw [dictGet_put_ne _ ex.id _ (fun hmm => hid hmm.symm)]
                    exact hsome
                  split
                  next hn2 => rw [hscr] at hn2
                  next ex2 hs2 =>
                    rw [hscr] at hs2
                    injection hs2 with he2
                    subst he2
                    rw [if_neg hnull]
                    split
                    next e3 hiter3 => rw [hiter] at hiter3; exact absurd hiter3 (by simp)
                    next elems2 hiter2 =>
                      rw [hiter] at hiter2
                      injection hiter2 with hiter2'
                      subst hiter2'
                      split
                      next e4 hfil3 => rw [hfil] at hfil3; exact absurd hfil3 (by simp)
                      next filtered2 hfil3 =>
                        rw [hfil] at hfil3
                        injection hfil3 with hfil3'
                        subst hfil3'
                        simp [putConversations_single, dictPut_put_same]
              next heq2 => exact absurd heq (heq2 _)
    · rw [if_neg ht] at h
      injection h with h'
      subst h'
      exact h0
  next heq => exact absurd h (by simp)

/-- C2 (amended): applying the same SyncEvent twice through
_apply_sync_event yields the same final storage as applying it once, for
every event type and payload, provided the storage's message table has no
duplicate keys (the invariant of a Python dict) and a participant.add
payload carries a "userId" key.  Without the userId key the add reducer is
not idempotent (see the counterexample). -/
theorem c2_sync_reducers_idempotent (e : SyncEvent) (st st' : Storage)
    (hwf : (st.messages.map Prod.fst).Nodup)
    (hadd : e.type = .jstr "participant.add" → addHasUserId e = true)
    (h : applySyncEvent e st = .ok st') : applySyncEvent e st' = .ok st' := by
  unfold applySyncEvent at h ⊢
  by_cases h1 : e.type = .jstr "message.new"
  · rw [if_pos h1] at h ⊢
    exact applyMsgNew_idem e st st' h
  · rw [if_neg h1] at h ⊢
    by_cases h2 : e.type = .jstr "message.edit"
    · rw [if_pos h2] at h ⊢
      exact applyMsgEdit_idem e st st' h
    · rw [if_neg h2] at h ⊢
      by_cases h3 : e.type = .jstr "message.delete"
      · rw [if_pos h3] at h ⊢
        exact applyMsgDelete_idem e st st' hwf h
      · rw [if_neg h3] at h ⊢
        by_cases h4 :
            e.type = .jstr "conversation.create" ∨ e.type = .jstr "conversation.update"
        · rw [if_pos h4] at h ⊢
          exact applyConvUpsert_idem e st st' h
        · rw [if_neg h4] at h ⊢
          by_cases h5 : e.type = .jstr "conversation.archive"
          · rw [if_pos h5] at h ⊢
            exact applyConvArchive_idem e st st' h
          · rw [if_neg h5] at h ⊢
            by_cases h6 : e.type = .jstr "participant.add"
            · rw [if_pos h6] at h ⊢
              exact applyPartAdd_idem e st st' (hadd h6) h
            · rw [if_neg h6] at h ⊢
              by_cases h7 : e.type = .jstr "participant.remove"
              · rw [if_pos h7] at h ⊢
                exact applyPartRemove_idem e st st' h
              · rw [if_neg h7] at h ⊢

/-- participant.add event whose payload lacks a userId key. -/
def c2AddEventBad : SyncEvent :=
  { seq := .jnum 1, type := .jstr "participant.add",
    data := .jobj [("conversationId", .jstr "c1")], conversation_id := .jnull,
    evAt := .jstr "t1" }

def c2StoreBad : Storage :=
  { conversations := [(.jstr "c1", { id := .jstr "c1", type := .jstr "group", members := .jarr [] })] }

def exceptOkSt : Except String Storage → Bool := fun r =>
  match r with
  | .ok _ => true
  | .error _ => false

instance {ε α : Type} [DecidableEq ε] [DecidableEq α] : DecidableEq (Except ε α) :=
  fun a b =>
    match a, b with
    | .ok x, .ok y =>
        if h : x = y then isTrue (by rw [h]) else
          isFalse (fun hc => h (by injection hc))
    | .error x, .error y =>
        if h : x = y then isTrue (by rw [h]) else
          isFalse (fun hc => h (by injection hc))
    | .ok _, .error _ => isFalse (fun hc => Except.noConfusion hc)
    | .error _, .ok _ => isFalse (fun hc => Except.noConfusion hc)

/-- C2 counterexample: a participant.add event without a "userId" key
applied twice to a store holding the conversation with an empty member
list appends a degenerate member on every application — both applications
succeed yet the states differ, so _apply_sync_event is not idempotent for
every payload as claimed. -/
theorem c2_counterexample :
    exceptOkSt (applySyncEvent c2AddEventBad c2StoreBad) = true ∧
    exceptOkSt ((applySyncEvent c2AddEventBad c2StoreBad).bind
      (applySyncEvent c2AddEventBad)) = true ∧
    (applySyncEvent c2AddEventBad c2StoreBad).bind (applySyncEvent c2AddEventBad) ≠
      applySyncEvent c2AddEventBad c2StoreBad := by
  decide

/-- participant.add event carrying a userId, for the witness. -/
def c2AddEventW : SyncEvent :=
  { seq := .jnum 2, type := .jstr "participant.add",
    data := .jobj [("conversationId", .jstr "c1"), ("userId", .jstr "u1")],
    conversation_id := .jnull, evAt := .jstr "t2" }

def c2StoreW : Storage :=
  { conversations := [(.jstr "c1", { id := .jstr "c1", type := .jstr "group", members := .jarr [] })] }

def c2StoreW1 : Storage :=
  match applySyncEvent c2AddEventW c2StoreW with
  | .ok st => st
  | .error _ => c2StoreW

/-- Witness for C2: a participant.add with a userId applied to a concrete
store satisfies the hypotheses, and replaying it leaves the state fixed. -/
theorem c2_sync_reducers_idempotent_witness :
    (c2StoreW.messages.map Prod.fst).Nodup ∧
    (c2AddEventW.type = .jstr "participant.add" → addHasUserId c2AddEventW = true) ∧
    applySyncEvent c2AddEventW c2StoreW = .ok c2StoreW1 ∧
    applySyncEvent c2AddEventW c2StoreW1 = .ok c2StoreW1 :=
  ⟨by decide, by decide, by decide,
   c2_sync_reducers_idempotent c2AddEventW c2StoreW c2StoreW1 (by decide) (by decide)
     (by decide)⟩

/-- C6 counterexample: the claim's patterns lack the `/api/im/` prefix the
code's regexes require.  "/messages/abc" contains "/messages/" yet a POST
to it is classified as none, and likewise "/conversations/c1/read" matches
the claim's read pattern yet classifies as none. -/
theorem c6_counterexample :
    strHasSub "/messages/abc" "/messages/" = true ∧
    matchWriteOp "POST" "/messages/abc" = none ∧
    matchWriteOp "PATCH" "/messages/abc" = none ∧
    matchWriteOp "POST" "/conversations/c1/read" = none := by decide

/-- C6 (amended): the classifier is a pure function of method and path
(its type takes nothing else, so it cannot depend on the body); the ordered
first-match-wins rules are exactly the source regex searches, which demand
the `/api/im/` prefix: POST on a path containing /api/im/messages/,
/api/im/direct/ or /api/im/groups/ is message.send; PATCH (resp. DELETE)
on /api/im/messages/ is message.edit (resp. message.delete); a POST whose
path contains /api/im/conversations/{seg}/read — and matches no earlier
rule — is conversation.read; everything else is none. -/
theorem c6_write_classifier (method path : String) :
    (matchWriteOp method path = some "message.send" ↔
      method = "POST" ∧ (strHasSub path "/api/im/messages/" = true ∨
        strHasSub path "/api/im/direct/" = true ∨ strHasSub path "/api/im/groups/" = true)) ∧
    (matchWriteOp method path = some "message.edit" ↔
      method = "PATCH" ∧ strHasSub path "/api/im/messages/" = true) ∧
    (matchWriteOp method path = some "message.delete" ↔
      method = "DELETE" ∧ strHasSub path "/api/im/messages/" = true) ∧
    (matchWriteOp method path = some "conversation.read" ↔
      method = "POST" ∧ convReadSearch path.data = true ∧
        ¬(strHasSub path "/api/im/messages/" = true ∨
          strHasSub path "/api/im/direct/" = true ∨
          strHasSub path "/api/im/groups/" = true)) ∧
    (matchWriteOp method path = none ↔
      ¬(method = "POST" ∧ (strHasSub path "/api/im/messages/" = true ∨
          strHasSub path "/api/im/direct/" = true ∨ strHasSub path "/api/im/groups/" = true)) ∧
      ¬(method = "PATCH" ∧ strHasSub path "/api/im/messages/" = true) ∧
      ¬(method = "DELETE" ∧ strHasSub path "/api/im/messages/" = true) ∧
      ¬(method = "POST" ∧ convReadSearch path.data = true)) := by
  unfold matchWriteOp matchGo writePatterns
  by_cases h1 : strHasSub path "/api/im/messages/" = true <;>
    by_cases h2 : strHasSub path "/api/im/direct/" = true <;>
      by_cases h3 : strHasSub path "/api/im/groups/" = true <;>
        by_cases h4 : convReadSearch path.data = true <;>
          by_cases hm1 : method = "POST" <;>
            by_cases hm2 : method = "PATCH" <;>
              by_cases hm3 : method = "DELETE" <;>
                simp_all [matchGo]

/-- A sequence of flush passes in which the operation fails transiently on
every attempted pass: a scheduled pass attempts the operation iff the
readiness filter of dequeue_ready would still hand it out, and each failed
attempt applies exactly the nack update flush performs
(`retries := retries + 1`).  Returns the final operation state and the
number of attempts made. -/
def transientRunSched (err : JVal) : List Bool → OutboxOperation → OutboxOperation × Nat
  | [], op => (op, 0)
  | b :: rest, op =>
      if b && isReady op then
        let r := transientRunSched err rest (nackOp err (op.retries + 1) op)
        (r.1, r.2 + 1)
      else transientRunSched err rest op

theorem transientRunSched_attempts (err : JVal) :
    ∀ (sched : List Bool) (op : OutboxOperation),
      (transientRunSched err sched op).2 ≤ op.max_retries - op.retries
  | [], op => by simp [transientRunSched]
  | b :: rest, op => by
      by_cases hr : (b && isReady op) = true
      · have hready : op.retries < op.max_retries := by
          have h2 := (Bool.and_eq_true _ _).mp hr |>.2
          simp only [isReady, Bool.and_eq_true, decide_eq_true_eq] at h2
          exact h2.2
        have ih := transientRunSched_attempts err rest (nackOp err (op.retries + 1) op)
        simp only [transientRunSched, hr, if_pos]
        simp only [nackOp] at ih ⊢
        omega
      · simp only [transientRunSched, hr, if_neg, Bool.not_eq_true]
        exact transientRunSched_attempts err rest op

theorem transientRunSched_stuck (err : JVal) :
    ∀ (sched : List Bool) (op : OutboxOperation), isReady op = false →
      transientRunSched err sched op = (op, 0)
  | [], _, _ => rfl
  | b :: rest, op, h => by
      simp only [transientRunSched, h, Bool.and_false]
      exact transientRunSched_stuck err rest op h

theorem transientRunSched_replicate_failed (err : JVal) :
    ∀ (n : Nat) (op : OutboxOperation), op.status = "pending" →
      op.retries < op.max_retries → op.max_retries - op.retries ≤ n →
      (transientRunSched err (List.replicate n true) op).1.status = "failed"
  | 0, op, _, hr, hn => by omega
  | n + 1, op, hp, hr, hn => by
      have hready : isReady op = true := by simp [isReady, hp, hr]
      simp only [List.replicate, transientRunSched, hready, Bool.and_self, if_pos]
      by_cases hlast : op.max_retries ≤ op.retries + 1
      · have hst : (nackOp err (op.retries + 1) op).status = "failed" := by
          simp [nackOp, hlast]
        have hnr : isReady (nackOp err (op.retries + 1) op) = false := by
          simp [isReady, hst]
        rw [transientRunSched_stuck err _ _ hnr]
        exact hst
      · have hst : (nackOp err (op.retries + 1) op).status = "pending" := by
          simp [nackOp, hlast, hp]
        have := transientRunSched_replicate_failed err n (nackOp err (op.retries + 1) op)
          hst (by simp [nackOp]; omega) (by simp [nackOp]; omega)
        exact this

/-- C3 (confirmed): once an operation's retry count reaches max_retries the
nack update flips it to status failed and the dequeue_ready readiness
filter excludes it forever; across any schedule of flush passes in which
every attempt fails transiently, the operation is attempted at most
max_retries times, and after max_retries all-attempting passes it sits in
status failed, never to be returned by dequeue_ready again. -/
theorem c3_retry_ceiling (op : OutboxOperation) (err err2 : JVal)
    (hp : op.status = "pending") (h0 : op.retries = 0) (hmax : 0 < op.max_retries) :
    (∀ sched : List Bool, (transientRunSched err sched op).2 ≤ op.max_retries) ∧
    (∀ r : Nat, op.max_retries ≤ r →
      (nackOp err2 r op).status = "failed" ∧ isReady (nackOp err2 r op) = false) ∧
    (∀ (lim : Nat) (st : Storage) (o : OutboxOperation), o ∈ dequeueReady lim st →
      o.status = "pending" ∧ o.retries < o.max_retries) ∧
    (∀ n : Nat, op.max_retries ≤ n →
      (transientRunSched err (List.replicate n true) op).1.status = "failed" ∧
      isReady (transientRunSched err (List.replicate n true) op).1 = false) := by
  refine ⟨?_, ?_, ?_, ?_⟩
  · intro sched
    have := transientRunSched_attempts err sched op
    omega
  · intro r hr
    constructor
    · simp [nackOp, hr]
    · simp [isReady, nackOp, hr]
  · intro lim st o hmem
    have h := mem_dequeueReady lim st o hmem
    simp only [isReady, Bool.and_eq_true, beq_iff_eq, decide_eq_true_eq] at h
    exact h
  · intro n hn
    have hst := transientRunSched_replicate_failed err n op hp (by omega) (by omega)
    exact ⟨hst, by simp [isReady, hst]⟩

def c3OpW : OutboxOperation :=
  { id := "w1", type := "message.send", method := "POST",
    path := "/api/im/messages/c1", max_retries := 5 }

/-- Witness for C3 at a concrete pending operation with max_retries = 5 and
seven all-attempting transiently-failing passes. -/
theorem c3_retry_ceiling_witness :
    c3OpW.status = "pending" ∧ c3OpW.retries = 0 ∧ 0 < c3OpW.max_retries ∧
    (transientRunSched .jnull (List.replicate 7 true) c3OpW).2 ≤ c3OpW.max_retries ∧
    (transientRunSched .jnull (List.replicate 7 true) c3OpW).1.status = "failed" :=
  ⟨rfl, rfl, by decide,
   (c3_retry_ceiling c3OpW .jnull .jnull rfl rfl (by decide)).1 (List.replicate 7 true),
   ((c3_retry_ceiling c3OpW .jnull .jnull rfl rfl (by decide)).2.2.2 7 (by decide)).1⟩

/-- C5 (confirmed): a flush attempt answered with a non-ok result whose
error code is a string containing neither "TIMEOUT" nor "NETWORK" nacks
the operation with retries forced to max_retries in this single attempt
(so the stored operation is failed and never ready again), emits
outbox.failed with retries_left 0, and additionally message.failed for
message.send operations. -/
theorem c5_permanent_failure (op : OutboxOperation) (st : Storage)
    (rfs efs : List (String × JVal)) (s : String)
    (hmem : dictGet op.id st.outbox = some op)
    (hok : truthy ((jField rfs "ok").getD .jnull) = false)
    (herr : pyOr ((jField rfs "error").getD .jnull) (.jobj []) = .jobj efs)
    (hcode : (jField efs "code").getD (.jstr "") = .jstr s)
    (ht : strHasSub s "TIMEOUT" = false) (hn : strHasSub s "NETWORK" = false) :
    flushAttempt op (.ok (.jobj rfs)) st =
      (stNack op.id ((jField efs "message").getD (.jstr "Request failed")) op.max_retries st,
       ("outbox.sending", .pjson (.jobj [("op_id", .jstr op.id), ("type", .jstr op.type)])) ::
         ("outbox.failed",
          .pjson (.jobj [("op_id", .jstr op.id),
            ("error", (jField efs "message").getD (.jstr "Request failed")),
            ("retries_left", .jnum 0)])) ::
         (if op.type == "message.send" then
            [("message.failed",
              .pjson (.jobj [("client_id", .jstr op.id),
                ("error", (jField efs "message").getD (.jstr "Request failed"))]))]
          else [])) ∧
    dictGet op.id
        (stNack op.id ((jField efs "message").getD (.jstr "Request failed"))
          op.max_retries st).outbox =
      some (nackOp ((jField efs "message").getD (.jstr "Request failed")) op.max_retries op) ∧
    (nackOp ((jField efs "message").getD (.jstr "Request failed")) op.max_retries op).retries =
      op.max_retries ∧
    (nackOp ((jField efs "message").getD (.jstr "Request failed")) op.max_retries op).status =
      "failed" ∧
    isReady (nackOp ((jField efs "message").getD (.jstr "Request failed")) op.max_retries op) =
      false := by
  refine ⟨?_, ?_, rfl, by simp [nackOp], by simp [isReady, nackOp]⟩
  · unfold flushAttempt flushTry
    simp only [pyGetE, pyGetDE, pyInE, herr, hcode, hok, ht, hn, Bool.false_eq_true,
      if_false, if_true, reduceCtorEq]
    split
    next heqt => simp [heqt]
    next heqt => simp [heqt]
  · unfold stNack
    rw [hmem]
    exact dictGet_put_self _ _ _

def c5OpW : OutboxOperation :=
  { id := "w5", type := "message.send", method := "POST",
    path := "/api/im/messages/c1", max_retries := 5 }

def c5StW : Storage := { outbox := [("w5", c5OpW)] }

def c5ResFields : List (String × JVal) :=
  [("ok", .jbool false),
   ("error", .jobj [("code", .jstr "VALIDATION"), ("message", .jstr "bad request")])]

def c5ErrFields : List (String × JVal) :=
  [("code", .jstr "VALIDATION"), ("message", .jstr "bad request")]

/-- Witness for C5 at a concrete message.send operation and a VALIDATION
error response. -/
theorem c5_permanent_failure_witness :
    dictGet c5OpW.id c5StW.outbox = some c5OpW ∧
    truthy ((jField c5ResFields "ok").getD .jnull) = false ∧
    pyOr ((jField c5ResFields "error").getD .jnull) (.jobj []) = .jobj c5ErrFields ∧
    (jField c5ErrFields "code").getD (.jstr "") = .jstr "VALIDATION" ∧
    strHasSub "VALIDATION" "TIMEOUT" = false ∧
    strHasSub "VALIDATION" "NETWORK" = false ∧
    ((nackOp ((jField c5ErrFields "message").getD (.jstr "Request failed"))
        c5OpW.max_retries c5OpW).retries = c5OpW.max_retries ∧
      (nackOp ((jField c5ErrFields "message").getD (.jstr "Request failed"))
        c5OpW.max_retries c5OpW).status = "failed") :=
  ⟨by decide, by decide, by decide, by decide, by decide, by decide,
   (c5_permanent_failure c5OpW c5StW c5ResFields c5ErrFields "VALIDATION" (by decide)
      (by decide) (by decide) (by decide) (by decide) (by decide)).2.2.1,
   (c5_permanent_failure c5OpW c5StW c5ResFields c5ErrFields "VALIDATION" (by decide)
      (by decide) (by decide) (by decide) (by decide) (by decide)).2.2.2.1⟩

def c4OpX : OutboxOperation :=
  { id := "x4", type := "message.send", method := "POST",
    path := "/api/im/messages/c1", max_retries := 5 }

def c4StX : Storage := { outbox := [("x4", c4OpX)] }

def c4ResX : JVal :=
  .jobj [("ok", .jbool false),
         ("error", .jobj [("code", .jstr "TIMEOUT"), ("message", .jstr "slow")])]

/-- C4 counterexample: a first transient TIMEOUT failure of a fresh
message.send operation (retries 0, max_retries 5) leaves 4 retries, but
the emitted outbox.failed carries retries_left 3 (the nack mutates the
shared operation object before the payload reads it), and an uncaught
exception below the ceiling emits no outbox.failed at all — both
contradict the claim. -/
theorem c4_counterexample :
    (flushAttempt c4OpX (.ok c4ResX) c4StX).2 =
      [("outbox.sending", .pjson (.jobj [("op_id", .jstr "x4"), ("type", .jstr "message.send")])),
       ("outbox.failed",
        .pjson (.jobj [("op_id", .jstr "x4"), ("error", .jstr "slow"),
          ("retries_left", .jnum 3)]))] ∧
    ((c4OpX.max_retries : Int) - ((c4OpX.retries : Int) + 1) = 4) ∧
    ((3 : Int) ≠ 4) ∧
    (flushAttempt c4OpX (.error "boom") c4StX).2 =
      [("outbox.sending",
        .pjson (.jobj [("op_id", .jstr "x4"), ("type", .jstr "message.send")]))] := by
  decide

/-- C4 (amended): on a transient failure flush nacks the operation with
retries incremented by exactly one, but the events differ from the claim:
a timeout/network-class error result always emits outbox.failed whose
retries_left is max_retries - retries - 2 — one less than the remaining
count, because nack mutates the dequeued operation before the payload is
built — and never message.failed; an uncaught exception emits nothing
beyond outbox.sending unless retries + 2 ≥ max_retries, in which case it
emits outbox.failed with retries_left 0 and, for sends, message.failed. -/
theorem c4_transient_failure (op : OutboxOperation) (st : Storage)
    (hmem : dictGet op.id st.outbox = some op) :
    (∀ (rfs efs : List (String × JVal)) (s : String),
      truthy ((jField rfs "ok").getD .jnull) = false →
      pyOr ((jField rfs "error").getD .jnull) (.jobj []) = .jobj efs →
      (jField efs "code").getD (.jstr "") = .jstr s →
      (strHasSub s "TIMEOUT" = true ∨ strHasSub s "NETWORK" = true) →
      flushAttempt op (.ok (.jobj rfs)) st =
        (stNack op.id ((jField efs "message").getD (.jstr "Request failed"))
          (op.retries + 1) st,
         [("outbox.sending", .pjson (.jobj [("op_id", .jstr op.id), ("type", .jstr op.type)])),
          ("outbox.failed",
           .pjson (.jobj [("op_id", .jstr op.id),
             ("error", (jField efs "message").getD (.jstr "Request failed")),
             ("retries_left", .jnum ((op.max_retries : Int) - (op.retries : Int) - 2))]))])) ∧
    (∀ e : String,
      flushAttempt op (.error e) st =
        (stNack op.id (.jstr e) (op.retries + 1) st,
         if op.max_retries ≤ op.retries + 2 then
           ("outbox.sending", .pjson (.jobj [("op_id", .jstr op.id), ("type", .jstr op.type)])) ::
             ("outbox.failed",
              .pjson (.jobj [("op_id", .jstr op.id), ("error", .jstr e),
                ("retries_left", .jnum 0)])) ::
             (if op.type == "message.send" then
                [("message.failed",
                  .pjson (.jobj [("client_id", .jstr op.id), ("error", .jstr e)]))]
              else [])
         else
           [("outbox.sending",
             .pjson (.jobj [("op_id", .jstr op.id), ("type", .jstr op.type)]))])) := by
  have haliased : ∀ ev : JVal,
      dictGet op.id (stNack op.id ev (op.retries + 1) st).outbox =
        some (nackOp ev (op.retries + 1) op) := by
    intro ev
    unfold stNack
    rw [hmem]
    exact dictGet_put_self _ _ _
  have hrl : ((nackOp (.jstr "x") (op.retries + 1) op).max_retries : Int) -
      ((nackOp (.jstr "x") (op.retries + 1) op).retries : Int) - 1 =
      (op.max_retries : Int) - (op.retries : Int) - 2 := by
    simp only [nackOp]
    push_cast
    ring
  constructor
  · intro rfs efs s hok herr hcode htn
    have htrans :
        flushTransient op ((jField efs "message").getD (.jstr "Request failed")) st =
          (stNack op.id ((jField efs "message").getD (.jstr "Request failed"))
            (op.retries + 1) st,
           [("outbox.failed",
             .pjson (.jobj [("op_id", .jstr op.id),
               ("error", (jField efs "message").getD (.jstr "Request failed")),
               ("retries_left", .jnum ((op.max_retries : Int) - (op.retries : Int) - 2))]))],
           none) := by
      unfold flushTransient
      dsimp only
      rw [haliased]
      have : ((nackOp ((jField efs "message").getD (.jstr "Request failed"))
            (op.retries + 1) op).max_retries : Int) -
          ((nackOp ((jField efs "message").getD (.jstr "Request failed"))
            (op.retries + 1) op).retries : Int) - 1 =
          (op.max_retries : Int) - (op.retries : Int) - 2 := by
        simp only [nackOp]
        push_cast
        ring
      rw [Option.getD_some, this]
    unfold flushAttempt flushTry
    by_cases ht2 : strHasSub s "TIMEOUT" = true
    · simp only [pyGetE, pyGetDE, pyInE, herr, hcode, hok, ht2, Bool.false_eq_true,
        if_false, if_true, reduceCtorEq, htrans]
    · have hn2 : strHasSub s "NETWORK" = true := by
        rcases htn with h | h
        · exact absurd h ht2
        · exact h
      simp only [pyGetE, pyGetDE, pyInE, herr, hcode, hok, ht2, hn2, Bool.false_eq_true,
        if_false, if_true, reduceCtorEq, htrans]
  · intro e
    unfold flushAttempt flushTry
    dsimp only
    rw [haliased]
    simp only [Option.getD_some, nackOp]
    by_cases hceil : op.retries + 1 + 1 ≥ op.max_retries
    · rw [if_pos hceil, if_pos (by omega : op.max_retries ≤ op.retries + 2)]
      rfl
    · rw [if_neg hceil, if_neg (by omega : ¬op.max_retries ≤ op.retries + 2)]

def c4OpW : OutboxOperation :=
  { id := "w4", type := "message.send", method := "POST",
    path := "/api/im/messages/c1", retries := 3, max_retries := 5 }

def c4StW : Storage := { outbox := [("w4", c4OpW)] }

/-- Witness for C4 at a concrete operation: transient NETWORK failure and
exception path at the pseudo-ceiling. -/
theorem c4_transient_failure_witness :
    dictGet c4OpW.id c4StW.outbox = some c4OpW ∧
    flushAttempt c4OpW
        (.ok (.jobj [("ok", .jbool false),
          ("error", .jobj [("code", .jstr "NETWORK_DOWN"), ("message", .jstr "down")])]))
        c4StW =
      (stNack c4OpW.id ((jField [("code", JVal.jstr "NETWORK_DOWN"),
          ("message", JVal.jstr "down")] "message").getD (.jstr "Request failed"))
        (c4OpW.retries + 1) c4StW,
       [("outbox.sending",
         .pjson (.jobj [("op_id", .jstr c4OpW.id), ("type", .jstr c4OpW.type)])),
        ("outbox.failed",
         .pjson (.jobj [("op_id", .jstr c4OpW.id),
           ("error", (jField [("code", JVal.jstr "NETWORK_DOWN"),
             ("message", JVal.jstr "down")] "message").getD (.jstr "Request failed")),
           ("retries_left",
            .jnum ((c4OpW.max_retries : Int) - (c4OpW.retries : Int) - 2))]))]) ∧
    flushAttempt c4OpW (.error "boom") c4StW =
      (stNack c4OpW.id (.jstr "boom") (c4OpW.retries + 1) c4StW,
       if c4OpW.max_retries ≤ c4OpW.retries + 2 then
         ("outbox.sending",
          .pjson (.jobj [("op_id", .jstr c4OpW.id), ("type", .jstr c4OpW.type)])) ::
           ("outbox.failed",
            .pjson (.jobj [("op_id", .jstr c4OpW.id), ("error", .jstr "boom"),
              ("retries_left", .jnum 0)])) ::
           (if c4OpW.type == "message.send" then
              [("message.failed",
                .pjson (.jobj [("client_id", .jstr c4OpW.id), ("error", .jstr "boom")]))]
            else [])
       else
         [("outbox.sending",
           .pjson (.jobj [("op_id", .jstr c4OpW.id), ("type", .jstr c4OpW.type)]))]) :=
  ⟨by decide,
   (c4_transient_failure c4OpW c4StW (by decide)).1
     [("ok", .jbool false),
      ("error", .jobj [("code", .jstr "NETWORK_DOWN"), ("message", .jstr "down")])]
     [("code", .jstr "NETWORK_DOWN"), ("message", .jstr "down")] "NETWORK_DOWN"
     (by decide) (by decide) (by decide) (by decide),
   (c4_transient_failure c4OpW c4StW (by decide)).2 "boom"⟩

theorem matchWriteOp_get (path : String) : matchWriteOp "GET" path = none := by
  simp [matchWriteOp, matchGo, writePatterns]

/-- C8 (confirmed): with is_online false and the network call raising, a
GET dispatch to a path the classifier does not match and the cache does
not serve returns ok-true/empty-data instead of propagating; classified
writes are routed to _dispatch_write — which never touches the network or
the degrade branch — and land durably queued (status pending) in the
outbox. -/
theorem c8_offline_read_degrade (cid nowIso : String) (nowT : Int) (rl : Nat)
    (path : String) (body query : JVal) (st : Storage) (e : String)
    (hcache : readFromCache path query st = .ok none) :
    dispatch cid nowIso nowT rl false (.error e) "GET" path body query st =
      .ok (st, okEmptyResult, []) ∧
    (∀ method p t : String, matchWriteOp method p = some t →
      dispatch cid nowIso nowT rl false (.error e) method p body query st =
        dispatchWrite cid nowIso nowT rl t method p body query st ∧
      ∀ (stW : Storage) (ret : JVal) (evs : List Emit),
        dispatchWrite cid nowIso nowT rl t method p body query st = .ok (stW, ret, evs) →
        ∃ opq : OutboxOperation, dictGet cid stW.outbox = some opq ∧
          opq.status = "pending" ∧ opq.type = t) := by
  constructor
  · unfold dispatch
    rw [matchWriteOp_get, hcache]
    rfl
  · intro method p t hmatch
    constructor
    · unfold dispatch
      rw [hmatch]
    · intro stW ret evs heq
      unfold dispatchWrite at heq
      dsimp only at heq
      cases henr : enrichedBodyFor t body ("sdk-" ++ cid) with
      | error e2 => rw [henr] at heq; exact absurd heq (by simp)
      | ok enriched =>
          rw [henr] at heq
          dsimp only at heq
          injection heq with heq1
          have hstW := congrArg Prod.fst heq1
          dsimp only at hstW
          subst hstW
          refine ⟨_, dictGet_put_self _ _ _, rfl, rfl⟩

def c8DWRes : Storage × JVal × List Emit :=
  match dispatchWrite "cid8" "t8" 0 5 "message.send" "POST" "/api/im/messages/c1"
      (.jobj [("content", .jstr "hi")]) .jnull emptyStorage with
  | .ok t => t
  | .error _ => (emptyStorage, .jnull, [])

/-- Witness for C8: GET degrade on the empty store, and a concrete write
that ends up queued. -/
theorem c8_offline_read_degrade_witness :
    readFromCache "/api/im/messages/c9" .jnull emptyStorage = .ok none ∧
    dispatch "cid8" "t8" 0 5 false (.error "neterr") "GET" "/api/im/messages/c9" .jnull
        .jnull emptyStorage = .ok (emptyStorage, okEmptyResult, []) ∧
    matchWriteOp "POST" "/api/im/messages/c1" = some "message.send" ∧
    dispatchWrite "cid8" "t8" 0 5 "message.send" "POST" "/api/im/messages/c1"
        (.jobj [("content", .jstr "hi")]) .jnull emptyStorage =
      .ok (c8DWRes.1, c8DWRes.2.1, c8DWRes.2.2) ∧
    (∃ opq : OutboxOperation, dictGet "cid8" c8DWRes.1.outbox = some opq ∧
      opq.status = "pending" ∧ opq.type = "message.send") :=
  ⟨by decide, by
    have h := (c8_offline_read_degrade "cid8" "t8" 0 5 "/api/im/messages/c9" .jnull .jnull
      emptyStorage "neterr" (by decide)).1
    exact h, by decide, by decide,
   ((c8_offline_read_degrade "cid8" "t8" 0 5 "/api/im/messages/c9"
        (.jobj [("content", .jstr "hi")]) .jnull emptyStorage "neterr" (by decide)).2
      "POST" "/api/im/messages/c1" "message.send" (by decide)).2 c8DWRes.1 c8DWRes.2.1
      c8DWRes.2.2 (by decide)⟩

/-- C10 (confirmed): for every request the classifier does not match, of
any method, a raising network call while offline returns ok-true/empty
data with the storage untouched — the silent degrade branch is not
special-cased to GET. -/
theorem c10_degrade_any_method (cid nowIso : String) (nowT : Int) (rl : Nat)
    (method path : String) (body query : JVal) (st : Storage) (e : String)
    (hm : matchWriteOp method path = none)
    (hc : method = "GET" → readFromCache path query st = .ok none) :
    dispatch cid nowIso nowT rl false (.error e) method path body query st =
      .ok (st, okEmptyResult, []) := by
  unfold dispatch
  rw [hm]
  by_cases hg : method = "GET"
  · rw [if_pos (by simp [hg])]
    rw [hc hg]
    rfl
  · rw [if_neg (by simp [hg])]
    rfl

/-- Witness for C10: a POST to a non-write path while offline with a
raising network call degrades to ok-true/empty-data. -/
theorem c10_degrade_any_method_witness :
    matchWriteOp "POST" "/api/im/typing" = none ∧
    ("POST" = "GET" → readFromCache "/api/im/typing" .jnull emptyStorage = .ok none) ∧
    dispatch "c10" "t10" 0 5 false (.error "neterr") "POST" "/api/im/typing" .jnull .jnull
        emptyStorage = .ok (emptyStorage, okEmptyResult, []) :=
  ⟨by decide, by decide,
   c10_degrade_any_method "c10" "t10" 0 5 "POST" "/api/im/typing" .jnull .jnull
     emptyStorage "neterr" (by decide) (by decide)⟩

def c9Payload : JVal :=
  .jobj [("id", .jstr "m1"), ("createdAt", .jstr "t0"), ("conversationId", .jstr "c1")]

def c9Event : SyncEvent :=
  { seq := .jnum 1, type := .jstr "message.new", data := c9Payload,
    conversation_id := .jnull, evAt := .jstr "t0" }

/-- C9 counterexample: for the same message.new payload both paths store a
message, but the sync reducer tags it with sync_seq = 1 while the realtime
handler leaves sync_seq unset, so the stored shapes differ. -/
theorem c9_counterexample :
    exceptOkSt (applySyncEvent c9Event emptyStorage) = true ∧
    exceptOkSt (handleRealtimeEvent "message.new" c9Payload "t0" emptyStorage) = true ∧
    applySyncEvent c9Event emptyStorage ≠
      handleRealtimeEvent "message.new" c9Payload "t0" emptyStorage := by decide

/-- C9 (amended): for every message.new payload that carries a truthy
createdAt and a truthy conversationId, handle_realtime_event stores
exactly the message the sync reducer would store for a SyncEvent carrying
that payload — same id, conversation_id, content, type, sender_id,
status, parent_id, metadata and created_at — except for sequence tagging:
the realtime record's sync_seq stays null while the reducer sets it to the
event's seq (and for payloads with falsy createdAt the created_at
fallbacks differ as well: now() versus the event's at). -/
theorem c9_realtime_matches_reducer (fs : List (String × JVal)) (seq cidv atv : JVal)
    (nowIso : String) (st : Storage)
    (hct : truthy ((jField fs "createdAt").getD .jnull) = true)
    (hcid : truthy ((jField fs "conversationId").getD .jnull) = true) :
    ∃ m : StoredMessage, m.sync_seq = .jnull ∧
      handleRealtimeEvent "message.new" (.jobj fs) nowIso st = .ok (putMessages [m] st) ∧
      applySyncEvent
          { seq := seq, type := .jstr "message.new", data := .jobj fs,
            conversation_id := cidv, evAt := atv } st =
        .ok (putMessages [{ m with sync_seq := seq }] st) := by
  cases hcv : jField fs "createdAt" with
  | none => rw [hcv] at hct; exact absurd hct (by decide)
  | some cv =>
      rw [hcv] at hct
      simp only [Option.getD_some] at hct
      cases hcidv : jField fs "conversationId" with
      | none => rw [hcidv] at hcid; exact absurd hcid (by decide)
      | some cdv =>
          rw [hcidv] at hcid
          simp only [Option.getD_some] at hcid
          have hne : fs ≠ [] := by
            intro hnil
            rw [hnil] at hcv
            simp [jField, dictGet] at hcv
          have htr : truthy (.jobj fs) = true := by
            cases fs with
            | nil => exact absurd rfl hne
            | cons a l => simp [truthy]
          refine
            ⟨{ id := (jField fs "id").getD (.jstr "")
               conversation_id := cdv
               content := (jField fs "content").getD (.jstr "")
               type := (jField fs "type").getD (.jstr "text")
               sender_id := (jField fs "senderId").getD (.jstr "")
               parent_id := (jField fs "parentId").getD .jnull
               status := "confirmed"
               metadata := (jField fs "metadata").getD .jnull
               created_at := cv }, rfl, ?_, ?_⟩
          · unfold handleRealtimeEvent
            rw [if_pos (by simp [htr])]
            dsimp only
            rw [hcv, hcidv]
            simp only [Option.getD_some]
            rw [show pyOr cv (.jstr nowIso) = cv from by unfold pyOr; rw [if_pos hct]]
          · unfold applySyncEvent
            rw [if_pos rfl]
            unfold applyMsgNew
            rw [show pyOr (.jobj fs) (.jobj []) = .jobj fs from by
              unfold pyOr; rw [if_pos htr]]
            dsimp only
            rw [hcv, hcidv]
            simp only [Option.getD_some]
            rw [show pyOr cdv (pyOr cidv (.jstr "")) = cdv from by
              unfold pyOr; rw [if_pos hcid]]
            rw [show pyOr cv atv = cv from by unfold pyOr; rw [if_pos hct]]

/-- Witness for C9 at the concrete payload used by the counterexample. -/
theorem c9_realtime_matches_reducer_witness :
    truthy ((jField [("id", JVal.jstr "m1"), ("createdAt", JVal.jstr "t0"),
        ("conversationId", JVal.jstr "c1")] "createdAt").getD .jnull) = true ∧
    truthy ((jField [("id", JVal.jstr "m1"), ("createdAt", JVal.jstr "t0"),
        ("conversationId", JVal.jstr "c1")] "conversationId").getD .jnull) = true ∧
    (∃ m : StoredMessage, m.sync_seq = .jnull ∧
      handleRealtimeEvent "message.new"
          (.jobj [("id", .jstr "m1"), ("createdAt", .jstr "t0"),
            ("conversationId", .jstr "c1")]) "t9" emptyStorage =
        .ok (putMessages [m] emptyStorage) ∧
      applySyncEvent
          { seq := .jnum 7, type := .jstr "message.new",
            data := .jobj [("id", .jstr "m1"), ("createdAt", .jstr "t0"),
              ("conversationId", .jstr "c1")],
            conversation_id := .jnull, evAt := .jstr "t0" } emptyStorage =
        .ok (putMessages [{ m with sync_seq := .jnum 7 }] emptyStorage)) :=
  ⟨by decide, by decide,
   c9_realtime_matches_reducer
     [("id", .jstr "m1"), ("createdAt", .jstr "t0"), ("conversationId", .jstr "c1")]
     (.jnum 7) .jnull (.jstr "t0") "t9" emptyStorage (by decide) (by decide)⟩

theorem putMessages_cursors :
    ∀ (ms : List StoredMessage) (st : Storage), (putMessages ms st).cursors = st.cursors
  | [], _ => rfl
  | m :: rest, st => putMessages_cursors rest { st with messages := dictPut m.id m st.messages }

theorem putConversations_cursors :
    ∀ (cs : List StoredConversation) (st : Storage),
      (putConversations cs st).cursors = st.cursors
  | [], _ => rfl
  | c :: rest, st =>
      putConversations_cursors rest
        { st with conversations := dictPut c.id c st.conversations }

theorem applyMsgNew_cursors (e : SyncEvent) (st st' : Storage)
    (h : applyMsgNew e st = .ok st') : st'.cursors = st.cursors := by
  unfold applyMsgNew at h
  split at h
  next fs heq =>
    injection h with h'
    rw [← h']
    exact putMessages_cursors _ _
  next heq => exact absurd h (by simp)

theorem applyMsgEdit_cursors (e : SyncEvent) (st st' : Storage)
    (h : applyMsgEdit e st = .ok st') : st'.cursors = st.cursors := by
  unfold applyMsgEdit at h
  split at h
  next fs heq =>
    split at h
    next hnone =>
      injection h with h'
      rw [← h']
    next ex hsome =>
      injection h with h'
      rw [← h']
      exact putMessages_cursors _ _
  next heq => exact absurd h (by simp)

theorem applyMsgDelete_cursors (e : SyncEvent) (st st' : Storage)
    (h : applyMsgDelete e st = .ok st') : st'.cursors = st.cursors := by
  unfold applyMsgDelete at h
  split at h
  next fs heq =>
    by_cases ht : truthy ((jField fs "id").getD .jnull) = true
    · rw [if_pos ht] at h
      injection h with h'
      rw [← h']
      rfl
    · rw [if_neg ht] at h
      injection h with h'
      rw [← h']
  next heq => exact absurd h (by simp)

theorem applyConvUpsert_cursors (e : SyncEvent) (st st' : Storage)
    (h : applyConvUpsert e st = .ok st') : st'.cursors = st.cursors := by
  unfold applyConvUpsert at h
  split at h
  next fs heq =>
    injection h with h'
    rw [← h']
    exact putConversations_cursors _ _
  next heq => exact absurd h (by simp)

theorem applyConvArchive_cursors (e : SyncEvent) (st st' : Storage)
    (h : applyConvArchive e st = .ok st') : st'.cursors = st.cursors := by
  unfold applyConvArchive at h
  split at h
  next fs heq =>
    by_cases ht : truthy (pyOr ((jField fs "id").getD .jnull) e.conversation_id) = true
    · rw [if_pos ht] at h
      split at h
      next hnone =>
        injection h with h'
        rw [← h']
      next ex hsome =>
        split at h
        next ms hms =>
          injection h with h'
          rw [← h']
          exact putConversations_cursors _ _
        next hms => exact absurd h (by simp)
    · rw [if_neg ht] at h
      injection h with h'
      rw [← h']
  next heq => exact absurd h (by simp)

theorem applyPartAdd_cursors (e : SyncEvent) (st st' : Storage)
    (h : applyPartAdd e st = .ok st') : st'.cursors = st.cursors := by
  unfold applyPartAdd at h
  split at h
  next fs heq =>
    by_cases ht :
        truthy (pyOr ((jField fs "conversationId").getD .jnull) e.conversation_id) = true
    · rw [if_pos ht] at h
      split at h
      next hnone =>
        injection h with h'
        rw [← h']
      next ex hsome =>
        by_cases hnull : ex.members = JVal.jnull
        · rw [if_pos hnull] at h
          injection h with h'
          rw [← h']
        · rw [if_neg hnull] at h
          split at h
          next e1 hiter => exact absurd h (by simp)
          next elems hiter =>
            split at h
            next e2 hany => exact absurd h (by simp)
            next hany =>
              injection h with h'
              rw [← h']
            next hany =>
              split at h
              next ms hmem =>
                injection h with h'
                rw [← h']
                exact putConversations_cursors _ _
              next hmem => exact absurd h (by simp)
    · rw [if_neg ht] at h
      injection h with h'
      rw [← h']
  next heq => exact absurd h (by simp)

theorem applyPartRemove_cursors (e : SyncEvent) (st st' : Storage)
    (h : applyPartRemove e st = .ok st') : st'.cursors = st.cursors := by
  unfold applyPartRemove at h
  split at h
  next fs heq =>
    by_cases ht :
        truthy (pyOr ((jField fs "conversationId").getD .jnull) e.conversation_id) = true
    · rw [if_pos ht] at h
      split at h
      next hnone =>
        injection h with h'
        rw [← h']
      next ex hsome =>
        by_cases hnull : ex.members = JVal.jnull
        · rw [if_pos hnull] at h
          injection h with h'
          rw [← h']
        · rw [if_neg hnull] at h
          split at h
          next e1 hiter => exact absurd h (by simp)
          next elems hiter =>
            split at h
            next e2 hfil => exact absurd h (by simp)
            next filtered hfil =>
              injection h with h'
              rw [← h']
              exact putConversations_cursors _ _
    · rw [if_neg ht] at h
      injection h with h'
      rw [← h']
  next heq => exact absurd h (by simp)

theorem applySyncEvent_cursors (e : SyncEvent) (st st' : Storage)
    (h : applySyncEvent e st = .ok st') : st'.cursors = st.cursors := by
  unfold applySyncEvent at h
  split_ifs at h
  · exact applyMsgNew_cursors e st st' h
  · exact applyMsgEdit_cursors e st st' h
  · exact applyMsgDelete_cursors e st st' h
  · exact applyConvUpsert_cursors e st st' h
  · exact applyConvArchive_cursors e st st' h
  · exact applyPartAdd_cursors e st st' h
  · exact applyPartRemove_cursors e st st' h
  · injection h with h'
    rw [← h']

theorem applyEvents_cursors :
    ∀ (evs : List JVal) (st : Storage), (applyEvents evs st).1.cursors = st.cursors
  | [], _ => rfl
  | r :: rest, st => by
      unfold applyEvents
      cases hmk : mkEventE r with
      | error e => rfl
      | ok ev =>
          dsimp only
          cases hap : applySyncEvent ev st with
          | error e => rfl
          | ok st1 =>
              dsimp only
              rw [applyEvents_cursors rest st1]
              exact applySyncEvent_cursors ev st st1 hap

theorem pageParse_cursorNum (page : JVal) (cursor : String) (evs : List JVal)
    (ncs : String) (hm : Bool) (n : Int)
    (h : pageParse page cursor = .ok (evs, ncs, hm)) (hn : pageCursorNum page = some n) :
    ncs = pyStrJ (.jnum n) := by
  unfold pageParse at h
  unfold pageCursorNum at hn
  split at h
  next fs =>
    dsimp only at hn
    split at h
    next hguard => exact absurd h (by simp)
    next hguard =>
      split at h
      next ds hds =>
        rw [hds] at hn
        dsimp only at hn
        split at h
        next e1 hit => exact absurd h (by simp)
        next evs2 hit =>
          injection h with h'
          have hncs := congrArg (fun t : List JVal × String × Bool => t.2.1) h'
          dsimp only at hncs
          split at hn
          next n' hcur =>
            injection hn with hn'
            rw [← hncs, hcur]
            simp [hn']
          next hcur => exact absurd hn (by simp)
      next hds => exact absurd h (by simp)
  next => exact absurd h (by simp)

theorem pageStep_cursor (page : JVal) (cursor : String) (st st' : Storage)
    (ncs : String) (hm : Bool) (n : Int)
    (h : pageStep page cursor st = (st', .ok (ncs, hm)))
    (hn : pageCursorNum page = some n) :
    ncs = pyStrJ (.jnum n) ∧ dictGet "global_sync" st'.cursors = some ncs := by
  unfold pageStep at h
  cases hpp : pageParse page cursor with
  | error e =>
      rw [hpp] at h
      have := congrArg Prod.snd h
      simp at this
  | ok tr =>
      obtain ⟨evs, ncs0, hm0⟩ := tr
      rw [hpp] at h
      dsimp only at h
      cases hae : applyEvents evs st with
      | mk st1 oerr =>
          rw [hae] at h
          cases oerr with
          | some e2 =>
              have := congrArg Prod.snd h
              simp at this
          | none =>
              have h1 := congrArg Prod.fst h
              have h2 := congrArg Prod.snd h
              dsimp only at h1 h2
              injection h2 with h2'
              have hncs : ncs0 = ncs := congrArg Prod.fst h2'
              have hn0 : ncs0 = pyStrJ (.jnum n) :=
                pageParse_cursorNum page cursor evs ncs0 hm0 n hpp hn
              constructor
              · rw [← hncs, hn0]
              · rw [← h1, ← hncs]
                exact dictGet_put_self _ _ _

theorem syncLoop_done_cursor :
    ∀ (pages : List JVal) (cursor : String) (st st' : Storage),
      syncLoop pages cursor st = .done st' →
      (∀ p ∈ pages, (pageCursorNum p).isSome) →
      ∃ n : Int, n ∈ pages.filterMap pageCursorNum ∧
        dictGet "global_sync" st'.cursors = some (pyStrJ (.jnum n))
  | [], _, _, _, h, _ => by simp [syncLoop] at h
  | page :: rest, cursor, st, st', h, hall => by
      unfold syncLoop at h
      cases hps : pageStep page cursor st with
      | mk st1 r =>
          rw [hps] at h
          cases r with
          | error e => exact absurd h (by simp)
          | ok pr =>
              obtain ⟨ncs, hmr⟩ := pr
              dsimp only at h
              have hnum : (pageCursorNum page).isSome := hall page (by simp)
              obtain ⟨n, hn⟩ := Option.isSome_iff_exists.mp hnum
              have hpc := pageStep_cursor page cursor st st1 ncs hmr n hps hn
              by_cases hb : hmr = true
              · rw [if_pos hb] at h
                obtain ⟨n2, hmem2, hper2⟩ :=
                  syncLoop_done_cursor rest ncs st1 st' h
                    (fun p hp => hall p (by simp [hp]))
                refine ⟨n2, ?_, hper2⟩
                rw [List.filterMap_cons, hn]
                exact List.mem_cons_of_mem _ hmem2
              · rw [if_neg hb] at h
                injection h with h'
                refine ⟨n, ?_, ?_⟩
                · rw [List.filterMap_cons, hn]
                  exact List.mem_cons_self _ _
                · rw [← h', hpc.2, hpc.1]

/-- C7 (amended): the code persists whatever cursor each sync page returns,
so monotonicity holds exactly when the server's cursors do not regress:
for two sequential successful sync() runs over pages that all carry
numeric cursors forming a nondecreasing sequence, the cursor persisted
under "global_sync" after the second run is ≥ the one persisted after the
first.  Without that server-side condition the persisted cursor moves
backward (see the counterexample). -/
theorem c7_cursor_monotone (pages1 pages2 : List JVal) (st0 st1 st2 : Storage)
    (h1 : syncRun pages1 st0 = .done st1) (h2 : syncRun pages2 st1 = .done st2)
    (hall : ∀ p ∈ pages1 ++ pages2, (pageCursorNum p).isSome)
    (hmono : ((pages1 ++ pages2).filterMap pageCursorNum).Pairwise (· ≤ ·)) :
    ∃ n1 n2 : Int, dictGet "global_sync" st1.cursors = some (pyStrJ (.jnum n1)) ∧
      dictGet "global_sync" st2.cursors = some (pyStrJ (.jnum n2)) ∧ n1 ≤ n2 := by
  obtain ⟨n1, hm1, hp1⟩ :=
    syncLoop_done_cursor pages1 (startCursor st0) st0 st1 h1
      (fun p hp => hall p (List.mem_append.mpr (Or.inl hp)))
  obtain ⟨n2, hm2, hp2⟩ :=
    syncLoop_done_cursor pages2 (startCursor st1) st1 st2 h2
      (fun p hp => hall p (List.mem_append.mpr (Or.inr hp)))
  refine ⟨n1, n2, hp1, hp2, ?_⟩
  rw [List.filterMap_append] at hmono
  exact (List.pairwise_append.mp hmono).2.2 n1 hm1 n2 hm2

def c7Page (c : Int) : JVal :=
  .jobj [("ok", .jbool true),
         ("data", .jobj [("events", .jarr []), ("cursor", .jnum c),
           ("hasMore", .jbool false)])]

def c7FirstCursor : Option String :=
  match syncRun [c7Page 5] emptyStorage with
  | .done st => dictGet "global_sync" st.cursors
  | _ => none

def c7SecondCursor : Option String :=
  match syncRun [c7Page 5] emptyStorage with
  | .done st1 =>
      match syncRun [c7Page 3] st1 with
      | .done st2 => dictGet "global_sync" st2.cursors
      | _ => none
  | _ => none

/-- C7 counterexample: two sequential successful sync() runs whose server
responses return cursors 5 and then 3 persist "5" and then "3" — the
persisted cursor moves backward, refuting unconditional monotonicity. -/
theorem c7_counterexample :
    c7FirstCursor = some "5" ∧ c7SecondCursor = some "3" ∧
    "5" = pyStrJ (.jnum 5) ∧ "3" = pyStrJ (.jnum 3) ∧ (3 : Int) < 5 := by decide

def c7St1 : Storage :=
  match syncRun [c7Page 5] emptyStorage with
  | .done st => st
  | _ => emptyStorage

def c7St2 : Storage :=
  match syncRun [c7Page 7] c7St1 with
  | .done st => st
  | _ => c7St1

/-- Witness for C7 on two concrete nondecreasing runs (cursors 5 then 7). -/
theorem c7_cursor_monotone_witness :
    syncRun [c7Page 5] emptyStorage = .done c7St1 ∧
    syncRun [c7Page 7] c7St1 = .done c7St2 ∧
    (∀ p ∈ [c7Page 5] ++ [c7Page 7], (pageCursorNum p).isSome) ∧
    (([c7Page 5] ++ [c7Page 7]).filterMap pageCursorNum).Pairwise (· ≤ ·) ∧
    (∃ n1 n2 : Int, dictGet "global_sync" c7St1.cursors = some (pyStrJ (.jnum n1)) ∧
      dictGet "global_sync" c7St2.cursors = some (pyStrJ (.jnum n2)) ∧ n1 ≤ n2) :=
  ⟨by decide, by decide, by decide, by decide,
   c7_cursor_monotone [c7Page 5] [c7Page 7] emptyStorage c7St1 c7St2 (by decide)
     (by decide) (by decide) (by decide)⟩

def c1Op (cid nowIso path : String) (nowT : Int) (retryLimit : Nat)
    (bodyFs : List (String × JVal)) (enriched query : JVal) : OutboxOperation :=
  { id := cid
    type := "message.send"
    method := "POST"
    path := path
    body := enriched
    query := query
    status := "pending"
    created_at := nowT
    retries := 0
    max_retries := retryLimit
    idempotency_key := "sdk-" ++ cid
    local_data := some (optimisticLocalMessage cid nowIso path bodyFs)
    error := .jnull }

/-- The storage state right after _dispatch_write queues a message.send. -/
def c1St1 (cid nowIso path : String) (nowT : Int) (retryLimit : Nat)
    (bodyFs : List (String × JVal)) (enriched query : JVal) (st0 : Storage) : Storage :=
  stEnqueue (c1Op cid nowIso path nowT retryLimit bodyFs enriched query)
    (putMessages [optimisticLocalMessage cid nowIso path bodyFs] st0)

/-- The optimistic envelope _dispatch_write returns for a message.send. -/
def c1Ret (cid nowIso path : String) (bodyFs : List (String × JVal)) : JVal :=
  let lm := optimisticLocalMessage cid nowIso path bodyFs
  .jobj [("ok", .jbool true),
    ("data", .jobj [("conversationId", lm.conversation_id),
      ("message", .jobj [("id", lm.id), ("content", lm.content), ("type", lm.type),
        ("senderId", lm.sender_id), ("status", .jstr lm.status),
        ("createdAt", lm.created_at)])]),
    ("_pending", .jbool true),
    ("_clientId", .jstr cid)]

/-- A successful flush response carrying a server message object. -/
def c1Resp (serverFs : List (String × JVal)) : JVal :=
  .jobj [("ok", .jbool true), ("data", .jobj [("message", .jobj serverFs)])]

/-- The confirmed StoredMessage the flush success path builds from the
server-returned fields. -/
def c1New (cid nowIso path : String) (bodyFs serverFs : List (String × JVal)) :
    StoredMessage :=
  let lm := optimisticLocalMessage cid nowIso path bodyFs
  { id := (jField serverFs "id").getD lm.id
    client_id := some cid
    conversation_id := (jField serverFs "conversationId").getD lm.conversation_id
    content := (jField serverFs "content").getD lm.content
    type := (jField serverFs "type").getD lm.type
    sender_id := (jField serverFs "senderId").getD lm.sender_id
    parent_id := (jField serverFs "parentId").getD .jnull
    status := "confirmed"
    metadata := (jField serverFs "metadata").getD .jnull
    created_at := (jField serverFs "createdAt").getD lm.created_at }

/-- The storage state after the flush loop confirms the queued send. -/
def c1St2 (cid nowIso path : String) (nowT : Int) (retryLimit : Nat)
    (bodyFs serverFs : List (String × JVal)) (enriched query : JVal)
    (st0 : Storage) : Storage :=
  putMessages [c1New cid nowIso path bodyFs serverFs]
    (deleteMessage (.jstr ("local-" ++ cid))
      (stAck cid (c1St1 cid nowIso path nowT retryLimit bodyFs enriched query st0)))

/-- The events one successful flush of the queued send emits. -/
def c1Evs (cid : String) (serverFs : List (String × JVal)) : List Emit :=
  [("outbox.sending", .pjson (.jobj [("op_id", .jstr cid), ("type", .jstr "message.send")])),
   ("outbox.confirmed", .pjson (.jobj [("op_id", .jstr cid),
     ("server_data", .jobj [("message", .jobj serverFs)])])),
   ("message.confirmed", .pjson (.jobj [("client_id", .jstr cid),
     ("server_message", .jobj serverFs)]))]

/-- C1: a message.send routed through dispatch() immediately persists an
optimistic StoredMessage with status "pending" and the freshly minted
client_id, and after the flush loop processes the queued operation with a
successful \x7bok:true\x7d response carrying a server message, the local
placeholder "local-<client_id>" is gone and exactly one StoredMessage for
that logical send remains: it carries the server-assigned id, status
"confirmed", and the preserved client_id correlation id. -/
theorem c1_send_optimistic_then_confirmed
    (cid nowIso path : String) (nowT : Int) (retryLimit : Nat)
    (online : Bool) (nr : Except String JVal)
    (bodyFs serverFs : List (String × JVal)) (query enriched : JVal)
    (st0 : Storage) (net : NetFn) (sid : String)
    (hcls : matchWriteOp "POST" path = some "message.send")
    (henr : enrichedBodyFor "message.send" (.jobj bodyFs) ("sdk-" ++ cid) = .ok enriched)
    (hrl : 0 < retryLimit)
    (hout : st0.outbox = [])
    (hlocal : dictGet (.jstr ("local-" ++ cid)) st0.messages = none)
    (hfresh : ∀ kv ∈ st0.messages, (kv.2.client_id == some cid) = false)
    (hnet : ∀ b q, net "POST" path b q = .ok (c1Resp serverFs))
    (hsid : jField serverFs "id" = some (.jstr sid))
    (hneq : (JVal.jstr sid) ≠ .jstr ("local-" ++ cid)) :
    dispatch cid nowIso nowT retryLimit online nr "POST" path (.jobj bodyFs) query st0
      = .ok (c1St1 cid nowIso path nowT retryLimit bodyFs enriched query st0,
             c1Ret cid nowIso path bodyFs,
             [("message.local", .pmsg (optimisticLocalMessage cid nowIso path bodyFs))]) ∧
    dictGet (.jstr ("local-" ++ cid))
        (c1St1 cid nowIso path nowT retryLimit bodyFs enriched query st0).messages
      = some (optimisticLocalMessage cid nowIso path bodyFs) ∧
    (optimisticLocalMessage cid nowIso path bodyFs).status = "pending" ∧
    (optimisticLocalMessage cid nowIso path bodyFs).client_id = some cid ∧
    flushRun true net (c1St1 cid nowIso path nowT retryLimit bodyFs enriched query st0)
      = (c1St2 cid nowIso path nowT retryLimit bodyFs serverFs enriched query st0,
         c1Evs cid serverFs) ∧
    dictGet (.jstr ("local-" ++ cid))
        (c1St2 cid nowIso path nowT retryLimit bodyFs serverFs enriched query st0).messages
      = none ∧
    dictGet (.jstr sid)
        (c1St2 cid nowIso path nowT retryLimit bodyFs serverFs enriched query st0).messages
      = some (c1New cid nowIso path bodyFs serverFs) ∧
    (c1New cid nowIso path bodyFs serverFs).id = .jstr sid ∧
    (c1New cid nowIso path bodyFs serverFs).status = "confirmed" ∧
    (c1New cid nowIso path bodyFs serverFs).client_id = some cid ∧
    ((c1St2 cid nowIso path nowT retryLimit bodyFs serverFs enriched query
        st0).messages.countP (fun kv => kv.2.client_id == some cid)) = 1 := by
  cases serverFs with
  | nil => simp [jField, dictGet] at hsid
  | cons p rest =>
    have hnmid : (c1New cid nowIso path bodyFs (p :: rest)).id = .jstr sid := by
      show (jField (p :: rest) "id").getD
        (optimisticLocalMessage cid nowIso path bodyFs).id = _
      rw [hsid]
      rfl
    have hX : (c1St1 cid nowIso path nowT retryLimit bodyFs enriched query st0).outbox
        = [(cid, c1Op cid nowIso path nowT retryLimit bodyFs enriched query)] := by
      have h0 : (c1St1 cid nowIso path nowT retryLimit bodyFs enriched query st0).outbox
          = dictPut cid (c1Op cid nowIso path nowT retryLimit bodyFs enriched query)
              st0.outbox := rfl
      rw [h0, hout]
      rfl
    have hdq : dequeueReady 10 (c1St1 cid nowIso path nowT retryLimit bodyFs enriched query st0)
        = [c1Op cid nowIso path nowT retryLimit bodyFs enriched query] := by
      unfold dequeueReady
      rw [hX]
      simp [isReady, c1Op, pySortBy, insIns, List.filter, hrl]
    have hnetop : net (c1Op cid nowIso path nowT retryLimit bodyFs enriched query).method
        (c1Op cid nowIso path nowT retryLimit bodyFs enriched query).path
        (c1Op cid nowIso path nowT retryLimit bodyFs enriched query).body
        (c1Op cid nowIso path nowT retryLimit bodyFs enriched query).query
        = .ok (c1Resp (p :: rest)) := hnet enriched query
    have hfa : flushAttempt (c1Op cid nowIso path nowT retryLimit bodyFs enriched query)
        (.ok (c1Resp (p :: rest)))
        (c1St1 cid nowIso path nowT retryLimit bodyFs enriched query st0)
        = (c1St2 cid nowIso path nowT retryLimit bodyFs (p :: rest) enriched query st0,
           c1Evs cid (p :: rest)) := rfl
    have hfo : flushOps net [c1Op cid nowIso path nowT retryLimit bodyFs enriched query]
        (c1St1 cid nowIso path nowT retryLimit bodyFs enriched query st0)
        = (c1St2 cid nowIso path nowT retryLimit bodyFs (p :: rest) enriched query st0,
           c1Evs cid (p :: rest)) := by
      unfold flushOps
      dsimp only
      rw [hnetop, hfa]
      rfl
    have hmsgs2 : (c1St2 cid nowIso path nowT retryLimit bodyFs (p :: rest) enriched query
          st0).messages
        = dictPut (.jstr sid) (c1New cid nowIso path bodyFs (p :: rest)) st0.messages := by
      have h0 : (c1St2 cid nowIso path nowT retryLimit bodyFs (p :: rest) enriched query
            st0).messages
          = dictPut (c1New cid nowIso path bodyFs (p :: rest)).id
              (c1New cid nowIso path bodyFs (p :: rest))
              (dictPop (.jstr ("local-" ++ cid))
                (dictPut (.jstr ("local-" ++ cid))
                  (optimisticLocalMessage cid nowIso path bodyFs) st0.messages)) := rfl
      rw [h0, dictPop_put_fresh _ _ _ hlocal, hnmid]
    refine ⟨?_, ?_, rfl, rfl, ?_, ?_, ?_, hnmid, rfl, rfl, ?_⟩
    · unfold dispatch
      rw [hcls]
      dsimp only
      unfold dispatchWrite
      dsimp only
      rw [henr]
      rfl
    · exact dictGet_put_self _ _ st0.messages
    · have h0 : flushRun true net
          (c1St1 cid nowIso path nowT retryLimit bodyFs enriched query st0)
          = ((flushOps net
                (dequeueReady 10 (c1St1 cid nowIso path nowT retryLimit bodyFs enriched query st0))
                (c1St1 cid nowIso path nowT retryLimit bodyFs enriched query st0)).1,
             (flushOps net
                (dequeueReady 10 (c1St1 cid nowIso path nowT retryLimit bodyFs enriched query st0))
                (c1St1 cid nowIso path nowT retryLimit bodyFs enriched query st0)).2) := rfl
      rw [h0, hdq, hfo]
    · rw [hmsgs2, dictGet_put_ne _ _ _ (Ne.symm hneq) st0.messages]
      exact hlocal
    · rw [hmsgs2]
      exact dictGet_put_self _ _ st0.messages
    · rw [hmsgs2]
      exact countP_dictPut_unique _ (.jstr sid) (c1New cid nowIso path bodyFs (p :: rest))
        st0.messages hfresh (fun k' => by simp [c1New])

def c1NetW : NetFn := fun _ _ _ _ => .ok (c1Resp [("id", .jstr "srv-1")])

def c1EnrichedW : JVal :=
  .jobj [("content", .jstr "hi"), ("metadata", .jobj [("_idempotencyKey", .jstr "sdk-u1")])]

/-- Witness for C1 on a concrete send to /api/im/conversations/c1/messages. -/
theorem c1_send_optimistic_then_confirmed_witness :
    matchWriteOp "POST" "/api/im/messages/c1" = some "message.send" ∧
    ((c1St2 "u1" "t0" "/api/im/messages/c1" 0 5 [("content", .jstr "hi")]
        [("id", .jstr "srv-1")] c1EnrichedW .jnull
        emptyStorage).messages.countP (fun kv => kv.2.client_id == some "u1")) = 1 :=
  ⟨by decide,
   (c1_send_optimistic_then_confirmed "u1" "t0" "/api/im/messages/c1" 0 5
      false (.error "offline") [("content", .jstr "hi")] [("id", .jstr "srv-1")] .jnull
      c1EnrichedW emptyStorage c1NetW "srv-1" (by decide) (by decide) (by decide) rfl rfl
      (by decide) (fun b q => rfl) rfl (by decide)).2.2.2.2.2.2.2.2.2.2⟩

end Prismer
